import Mathlib

/-! ksckaan1/logger: a shallow embedding and its verified properties

The development follows the Go package `logger` file by file:

* `enum.go`   : the string enumerations `Output`, `Format`, `Level`;
* `config.go` : `Config`, `DefaultConfig`, `ParseLoggerEnvVar`, `setDefaults`, `validate`;
* `env.go`    : `parseEnv`;
* `logger.go` : `Logger`, `New`, `Close`, `Sub`, the levelled methods, `log`,
  `initZerolog`, `format`, `initWriters`, `getZerologLevel`, `initFile`,
  `addTraceAndSpanID`.

Errors are strings; `fmt.Errorf("ctx: %w", err)` is the string `"ctx: " ++ err`.
Go slices of strings are slice headers over a heap of backing arrays, so that the
aliasing behaviour of the builtin `append` is part of the model.
-/

namespace logger

/-! ## enum.go -/

abbrev Output := String
abbrev OutputStdout : Output := "stdout"
abbrev OutputStderr : Output := "stderr"
abbrev OutputFile : Output := "file"

abbrev Format := String
abbrev FormatLogfmt : Format := "logfmt"
abbrev FormatLogfmtNoColor : Format := "logfmt_no_color"
abbrev FormatJSON : Format := "json"

abbrev Level := String
abbrev LevelDisabled : Level := "disabled"
abbrev LevelTrace : Level := "trace"
abbrev LevelDebug : Level := "debug"
abbrev LevelInfo : Level := "info"
abbrev LevelWarning : Level := "warning"
abbrev LevelError : Level := "error"
abbrev LevelFatal : Level := "fatal"
abbrev LevelPanic : Level := "panic"

/-! ## The Go builtins and library functions the package calls -/

/-- Go `cmp.Or`: the first argument that differs from the zero value of the type,
and the zero value when there is none. -/
def cmpOr {α : Type} [DecidableEq α] (zero : α) : List α → α
  | [] => zero
  | v :: rest => if v ≠ zero then v else cmpOr zero rest

/-- A Go slice header over strings: the backing array (an index into the heap), the
length and the capacity. The nil slice has capacity 0 and never reads its array. -/
structure Slice where
  arr : Nat
  len : Nat
  cap : Nat
deriving DecidableEq, Repr

/-- The nil slice. -/
def Slice.nil : Slice := ⟨0, 0, 0⟩

/-- The heap of backing arrays; a backing array is as long as its capacity. -/
abbrev Heap := List (List String)

/-- The backing array at an index of the heap (empty when nothing was allocated there). -/
def backing (h : Heap) (a : Nat) : List String := h.getD a []

/-- The elements a slice header denotes in a heap: the first `len` cells of its array. -/
def Slice.read (h : Heap) (s : Slice) : List String :=
  (backing h s.arr).take s.len

/-- A slice header is well formed in a heap when its length is within its capacity
and its capacity within its backing array. Every slice a Go program holds is. -/
def Slice.WF (h : Heap) (s : Slice) : Prop :=
  s.len ≤ s.cap ∧ s.cap ≤ (backing h s.arr).length

instance (h : Heap) (s : Slice) : Decidable (s.WF h) := by
  unfold Slice.WF; exact inferInstance

/-- The loop of `runtime.growslice` for capacities of 256 and more: add
`(newcap + 768) / 4` to the capacity, and again until the needed length fits. -/
def growLoop (needed : Nat) : Nat → Nat → Nat
  | 0, _ => needed
  | fuel + 1, newcap =>
    let grown := newcap + (newcap + 768) / 4
    if needed ≤ grown then grown else growLoop needed fuel grown

/-- The Go runtime growth policy for a slice that is appended to when full
(`runtime.growslice` before rounding to an allocation size class): the needed length
when that is more than twice the old capacity, twice the old capacity below 256
elements, and the result of the loop above otherwise. For the capacities 0, 1, 2, 4, ...,
128 of a slice of strings that grows one element at a time the result is already a size
class, so the runtime returns exactly this value. -/
def growslice (oldCap needed : Nat) : Nat :=
  if oldCap + oldCap < needed then needed
  else if oldCap < 256 then oldCap + oldCap
  else growLoop needed needed oldCap

/-! ## config.go -/

/-- The configuration record of config.go. `Output` is a Go slice that is only ranged
over and compared with nil: `none` is the nil slice, `some xs` a non-nil slice. -/
structure Config where
  ServiceName : String := ""
  Output : Option (List String) := none
  OutputFilePath : String := ""
  OutputFormat : String := ""
  StdoutFormat : String := ""
  StderrFormat : String := ""
  FileFormat : String := ""
  Level : String := ""
  RotateEnabled : Bool := false
  RotateMaxSizeMB : Int := 0
  RotateMaxBackups : Int := 0
  RotateMaxAgeDays : Int := 0
  RotateCompress : Bool := false
  InjectTraceInfo : Bool := false
  parseEnv : Bool := false
deriving DecidableEq, Repr

/-- `DefaultConfig`: the zero value of `Config`. -/
def DefaultConfig : Config := {}

/-- `ParseLoggerEnvVar`: the zero value with the internal flag set. -/
def ParseLoggerEnvVar : Config := { parseEnv := true }

/-- `Config.setDefaults`. -/
def Config.setDefaults (c : Config) : Config :=
  { ServiceName := cmpOr "" [c.ServiceName, "unnamed-service"]
    Output := if c.Output = none then some [OutputStdout] else c.Output
    OutputFilePath := cmpOr "" [c.OutputFilePath, "./app.log"]
    OutputFormat := cmpOr "" [c.OutputFormat, FormatLogfmtNoColor]
    StdoutFormat := c.StdoutFormat
    StderrFormat := c.StderrFormat
    FileFormat := c.FileFormat
    Level := cmpOr "" [c.Level, LevelDebug]
    RotateEnabled := cmpOr false [c.RotateEnabled, true]
    RotateMaxSizeMB := cmpOr 0 [c.RotateMaxSizeMB, 10]
    RotateMaxBackups := cmpOr 0 [c.RotateMaxBackups, 3]
    RotateMaxAgeDays := cmpOr 0 [c.RotateMaxAgeDays, 28]
    RotateCompress := cmpOr false [c.RotateCompress, true]
    InjectTraceInfo := cmpOr false [c.InjectTraceInfo, true]
    parseEnv := c.parseEnv }

/-- The loop over `c.Output` at the head of `Config.validate`. -/
def validateOutput : List String → Except String Unit
  | [] => .ok ()
  | op :: rest =>
    if op = OutputStdout ∨ op = OutputStderr ∨ op = OutputFile then validateOutput rest
    else .error ("invalid output: " ++ op ++ ", valid values: stdout, stderr, file")

/-- `Config.validate`: the checks in source order, returning at the first failure. -/
def Config.validate (c : Config) : Except String Unit :=
  match validateOutput (c.Output.getD []) with
  | .error e => .error e
  | .ok _ =>
  if ¬ (c.OutputFormat = FormatLogfmt ∨ c.OutputFormat = FormatLogfmtNoColor
      ∨ c.OutputFormat = FormatJSON) then
    .error ("invalid output format: " ++ c.OutputFormat
      ++ ", valid values: logfmt, logfmt_no_color, json")
  else if ¬ (c.StdoutFormat = FormatLogfmt ∨ c.StdoutFormat = FormatLogfmtNoColor
      ∨ c.StdoutFormat = FormatJSON ∨ c.StdoutFormat = "") then
    .error ("invalid stdout format: " ++ c.StdoutFormat
      ++ ", valid values: logfmt, logfmt_no_color, json, empty")
  else if ¬ (c.StderrFormat = FormatLogfmt ∨ c.StderrFormat = FormatLogfmtNoColor
      ∨ c.StderrFormat = FormatJSON ∨ c.StderrFormat = "") then
    .error ("invalid stderr format: " ++ c.StderrFormat
      ++ ", valid values: logfmt, logfmt_no_color, json, empty")
  else if ¬ (c.FileFormat = FormatLogfmt ∨ c.FileFormat = FormatLogfmtNoColor
      ∨ c.FileFormat = FormatJSON ∨ c.FileFormat = "") then
    .error ("invalid file format: " ++ c.FileFormat
      ++ ", valid values: logfmt, logfmt_no_color, json, empty")
  else if ¬ (c.Level = LevelDisabled ∨ c.Level = LevelTrace ∨ c.Level = LevelDebug
      ∨ c.Level = LevelInfo ∨ c.Level = LevelWarning ∨ c.Level = LevelError
      ∨ c.Level = LevelFatal ∨ c.Level = LevelPanic) then
    .error ("invalid level: " ++ c.Level
      ++ ", valid values: disabled, trace, debug, info, warning, error, fatal, panic")
  else if c.RotateMaxSizeMB < 1 then
    .error ("invalid rotate max size mb: " ++ toString c.RotateMaxSizeMB
      ++ ", valid values: >= 1")
  else if c.RotateMaxBackups < 1 then
    .error ("invalid rotate max backups: " ++ toString c.RotateMaxBackups
      ++ ", valid values: >= 1")
  else if c.RotateMaxAgeDays < 1 then
    .error ("invalid rotate max age days: " ++ toString c.RotateMaxAgeDays
      ++ ", valid values: >= 1")
  else .ok ()

/-! ## The collaborators outside the package -/

/-- The collaborators outside the package: the environment binder `env.Parse`, the
operating system call `os.OpenFile` (its first argument counts the entries of `Output`
handled before in the same `initWriters` run, so that successive opens may differ), and
the capacity the runtime picks when `append` must reallocate. -/
structure Runtime where
  envParse : Config → Except String Config
  openFile : Nat → String → Except String Unit
  growCap : Nat → Nat → Nat

/-- Go `append(s, x)` on a slice of strings. With spare capacity the element is written
into the shared backing array at index `len(s)`; otherwise a new array is allocated,
the elements are copied and the new header points at the new array. -/
def goAppend (rt : Runtime) (h : Heap) (s : Slice) (x : String) : Heap × Slice :=
  if s.len < s.cap then
    (h.set s.arr ((backing h s.arr).set s.len x), { s with len := s.len + 1 })
  else
    let newcap := max (s.len + 1) (rt.growCap s.cap (s.len + 1))
    (h ++ [s.read h ++ [x] ++ List.replicate (newcap - (s.len + 1)) ""],
      ⟨h.length, s.len + 1, newcap⟩)

/-- `validator.New().Struct(cfg)` of go-playground/validator on a `*Config`: the engine
applies the rules written in the `validate` struct tags of the exported fields. The
fields of `Config` (config.go:8-40) carry `env` tags only, so no rule applies and
the call returns nil for every configuration. -/
def vldStruct (_cfg : Config) : Except String Unit := .ok ()

/-! ## env.go -/

/-- `parseEnv`: runs the binder and wraps its error. -/
def parseEnv (rt : Runtime) (cfg : Config) : Except String Config :=
  match rt.envParse cfg with
  | .error e => .error ("env.Parse: " ++ e)
  | .ok c => .ok c

/-! ## logger.go -/

/-- The value stored in `Logger.file` (an `io.WriteCloser`): the rotation sink
`&lumberjack.Logger{...}` with the five fields `initFile` sets, or the `*os.File` that
`os.OpenFile` returned. `id` tells apart the values built by different calls. -/
inductive File where
  | lumberjack (id : Nat) (Filename : String) (MaxSize MaxBackups MaxAge : Int)
      (Compress : Bool)
  | osFile (id : Nat) (path : String)
deriving DecidableEq, Repr

/-- An `io.Writer` as `initWriters` builds it: one of the two process streams, the file
sink, or a `zerolog.ConsoleWriter` around another writer. -/
inductive Writer where
  | stdout
  | stderr
  | file (f : File)
  | console (out : Writer) (noColor : Bool) (timeFormat : String)
deriving DecidableEq, Repr

/-- The layout `time.RFC3339`. -/
abbrev RFC3339 : String := "2006-01-02T15:04:05Z07:00"

/-- The severities of `zerolog.Level`. -/
inductive ZerologLevel where
  | DebugLevel | InfoLevel | WarnLevel | ErrorLevel | FatalLevel | PanicLevel
  | NoLevel | Disabled | TraceLevel
deriving DecidableEq, Repr

/-- The engine `initZerolog` assembles: the writers handed to `io.MultiWriter` (an entry
is `none` when the Go value is a nil `io.Writer`), the level threshold, and the
timestamp and caller hooks of the context. -/
structure ZLogger where
  writers : List (Option Writer)
  level : ZerologLevel
  timestamp : Bool
  callerSkipFrameCount : Nat
deriving DecidableEq, Repr

/-- The `Logger` struct. `cfg` is the configuration the pointer refers to. -/
structure Logger where
  zlog : Option ZLogger
  serviceNames : Slice
  cfg : Config
  file : Option File
deriving DecidableEq, Repr

/-- `Logger.format`: wrap the writer in a console writer for the two logfmt formats and
return it unchanged for every other format string. -/
def format (fmt : String) (wr : Writer) : Writer :=
  if fmt = "logfmt" then .console wr false RFC3339
  else if fmt = "logfmt_no_color" then .console wr true RFC3339
  else wr

/-- `Logger.getZerologLevel`. -/
def getZerologLevel (level : String) : ZerologLevel :=
  if level = "disabled" then .Disabled
  else if level = "trace" then .TraceLevel
  else if level = "debug" then .DebugLevel
  else if level = "info" then .InfoLevel
  else if level = "warning" then .WarnLevel
  else if level = "error" then .ErrorLevel
  else if level = "fatal" then .FatalLevel
  else if level = "panic" then .PanicLevel
  else .InfoLevel

/-- `Logger.initFile`, as the new value of `l.file` or the error. `n` names the value
built by this call. With rotation on, the rotation sink is constructed and nothing is
opened; otherwise the path is opened through the operating system. -/
def initFile (rt : Runtime) (cfg : Config) (n : Nat) : Except String File :=
  if cfg.RotateEnabled then
    .ok (.lumberjack n cfg.OutputFilePath cfg.RotateMaxSizeMB cfg.RotateMaxBackups
      cfg.RotateMaxAgeDays cfg.RotateCompress)
  else
    match rt.openFile n cfg.OutputFilePath with
    | .error e => .error ("os.OpenFile: " ++ e)
    | .ok _ => .ok (.osFile n cfg.OutputFilePath)

/-- The loop of `Logger.initWriters` over the remaining entries of `cfg.Output`. The
state is the index of the entry, the current `l.file` and the writers appended so far;
the result is the final `l.file` together with the writers or the error. -/
def initWritersLoop (rt : Runtime) (cfg : Config) :
    List String → Nat → Option File → List (Option Writer) →
      Option File × Except String (List (Option Writer))
  | [], _, file, writers => (file, .ok writers)
  | op :: rest, n, file, writers =>
    if op = "stdout" then
      let fmt := cmpOr "" [cfg.StdoutFormat, cfg.OutputFormat]
      if fmt = "" then (file, .error "stdout and output format is empty")
      else initWritersLoop rt cfg rest (n + 1) file (writers ++ [some (format fmt .stdout)])
    else if op = "stderr" then
      let fmt := cmpOr "" [cfg.StderrFormat, cfg.OutputFormat]
      if fmt = "" then (file, .error "stderr and output format is empty")
      else initWritersLoop rt cfg rest (n + 1) file (writers ++ [some (format fmt .stderr)])
    else if op = "file" then
      let fmt := cmpOr "" [cfg.FileFormat, cfg.OutputFormat]
      if fmt = "" then (file, .error "file and output format is empty")
      else
        match initFile rt cfg n with
        | .error e => (file, .error ("initFile: " ++ e))
        | .ok f =>
          initWritersLoop rt cfg rest (n + 1) (some f) (writers ++ [some (format fmt (.file f))])
    else initWritersLoop rt cfg rest (n + 1) file (writers ++ [none])

/-- `Logger.initWriters`: the receiver after the call and the writers or the error. -/
def initWriters (rt : Runtime) (l : Logger) :
    Logger × Except String (List (Option Writer)) :=
  let r := initWritersLoop rt l.cfg (l.cfg.Output.getD []) 0 l.file []
  ({ l with file := r.1 }, r.2)

/-- `Logger.initZerolog`: the receiver after the call and the engine or the error. -/
def initZerolog (rt : Runtime) (l : Logger) : Logger × Except String ZLogger :=
  match initWriters rt l with
  | (l1, .error e) => (l1, .error ("initWriters: " ++ e))
  | (l1, .ok writers) =>
    (l1, .ok { writers := writers, level := getZerologLevel l1.cfg.Level,
               timestamp := true, callerSkipFrameCount := 4 })

/-- `New`: the heap after the call with the Logger, or the error. -/
def New (rt : Runtime) (h : Heap) (cfg : Config) : Except String (Heap × Logger) :=
  match (if cfg.parseEnv then
          match parseEnv rt cfg with
          | .error e => Except.error ("parseEnv: " ++ e)
          | .ok c => Except.ok { c with parseEnv := true }
        else Except.ok cfg) with
  | .error e => .error e
  | .ok cfg1 =>
    let cfg2 := cfg1.setDefaults
    match vldStruct cfg2 with
    | .error e => .error ("vld.Struct: " ++ e)
    | .ok _ =>
      let lg : Logger := { zlog := none, serviceNames := Slice.nil, cfg := cfg2, file := none }
      let hs := if cfg2.ServiceName ≠ "" then goAppend rt h lg.serviceNames cfg2.ServiceName
                else (h, lg.serviceNames)
      match initZerolog rt { lg with serviceNames := hs.2 } with
      | (_, .error e) => .error ("initZerolog: " ++ e)
      | (lg1, .ok zlog) => .ok (hs.1, { lg1 with zlog := some zlog })

/-- `Logger.Close`: the handles the call closes and its result. When the Logger holds a
file, that handle is closed and the result is the handle's close result (given by
`closeResult`); when it holds none, nothing is closed and the result is nil. -/
def Close (closeResult : File → Except String Unit) (l : Logger) :
    List File × Except String Unit :=
  match l.file with
  | some f => ([f], closeResult f)
  | none => ([], .ok ())

/-- `Logger.Sub`: the heap after the call and the new Logger. -/
def Sub (rt : Runtime) (h : Heap) (l : Logger) (serviceName : String) : Heap × Logger :=
  let hs := if serviceName ≠ "" then goAppend rt h l.serviceNames serviceName
            else (h, l.serviceNames)
  (hs.1, { zlog := l.zlog, serviceNames := hs.2, cfg := l.cfg, file := none })

/-- The service path of a Logger: the elements of `l.serviceNames`. -/
def servicePath (h : Heap) (l : Logger) : List String :=
  l.serviceNames.read h

/-- A value passed in the variadic `fields ...any`. -/
inductive Value where
  | str (s : String)
  | int (i : Int)
  | bool (b : Bool)
  | null
deriving DecidableEq, Repr

/-- A call made on a `*zerolog.Event`. -/
inductive EventOp where
  | Str (key val : String)
  | Fields (fields : List Value)
  | Msg (message : String)
deriving DecidableEq, Repr

/-- A `*zerolog.Event`: the severity it was begun at and the calls made on it so far, in
order. -/
structure Event where
  level : ZerologLevel
  ops : List EventOp
deriving DecidableEq, Repr

/-- The span context `trace.SpanContextFromContext(ctx)` returns: `spanID` is `some s`
when `HasSpanID()` holds, `s` being `SpanID().String()`, and likewise for `traceID`. -/
structure SpanContext where
  spanID : Option String
  traceID : Option String
deriving DecidableEq, Repr

/-- `Logger.addTraceAndSpanID`. -/
def addTraceAndSpanID (spanCtx : SpanContext) (e : Event) : Event :=
  let e1 := match spanCtx.spanID with
    | some s => { e with ops := e.ops ++ [.Str "span_id" s] }
    | none => e
  match spanCtx.traceID with
  | some t => { e1 with ops := e1.ops ++ [.Str "trace_id" t] }
  | none => e1

/-- `Logger.log`: the event after the service field, the trace fields, the caller's
fields and the message have been put on it. -/
def log (h : Heap) (l : Logger) (ctx : SpanContext) (e : Event) (message : String)
    (fields : List Value) : Event :=
  let e1 := if (l.serviceNames.len ≠ 0) then
      { e with ops := e.ops ++ [.Str "service" (String.intercalate "/" (l.serviceNames.read h))] }
    else e
  let e2 := if l.cfg.InjectTraceInfo then addTraceAndSpanID ctx e1 else e1
  { e2 with ops := e2.ops ++ [.Fields fields, .Msg message] }

/-- `Logger.Info` and its six siblings: `log` on the event the engine begins at that
severity. The result lists the calls made on the event; the engine writes the event out
when its severity passes the threshold. -/
def logAt (level : ZerologLevel) (h : Heap) (l : Logger) (ctx : SpanContext)
    (message : String) (fields : List Value) : Event :=
  log h l ctx { level := level, ops := [] } message fields

/-- The runtime of the Go toolchain with an environment binder that finds no variable
set and an operating system that opens every path. -/
def goRuntime : Runtime :=
  { envParse := fun c => .ok c, openFile := fun _ _ => .ok (), growCap := growslice }

/-- The values of the string fields with a given key among the calls made on an event,
in order: what the event carries under that key apart from the caller's `fields`. -/
def Event.strFields (ev : Event) (key : String) : List String :=
  ev.ops.filterMap fun op =>
    match op with
    | .Str k v => if k = key then some v else none
    | _ => none

/-- The writer `initWriters` is to append for the entry `op` of `Output` handled at
index `n`: for stdout, stderr and file the destination wrapped by `format` in the
target's own override when that is not empty and in `OutputFormat` otherwise (for file
the destination is the value `initFile` built at that index), and a nil writer for any
other entry. -/
def SinkOf (rt : Runtime) (cfg : Config) (n : Nat) (op : String) (w : Option Writer) : Prop :=
  (op = "stdout" → w = some (format
      (if cfg.StdoutFormat = "" then cfg.OutputFormat else cfg.StdoutFormat) .stdout))
  ∧ (op = "stderr" → w = some (format
      (if cfg.StderrFormat = "" then cfg.OutputFormat else cfg.StderrFormat) .stderr))
  ∧ (op = "file" → ∃ fl, initFile rt cfg n = .ok fl ∧ w = some (format
      (if cfg.FileFormat = "" then cfg.OutputFormat else cfg.FileFormat) (.file fl)))
  ∧ (op ≠ "stdout" → op ≠ "stderr" → op ≠ "file" → w = none)

/-- The configuration the environment of `TestLogger_WithEnv` describes. -/
def cfgEnvTest : Config :=
  { ServiceName := "test", Output := some ["stdout", "file"], OutputFilePath := "./app.log",
    OutputFormat := "logfmt", StdoutFormat := "logfmt_no_color", StderrFormat := "logfmt",
    FileFormat := "json", Level := "debug", parseEnv := true }

/-- The Logger `New` hands to `initWriters` for `cfgEnvTest`. -/
def lgEnvTest : Logger :=
  { zlog := none, serviceNames := ⟨0, 1, 1⟩, cfg := cfgEnvTest.setDefaults, file := none }

/-- The eight valid levels of enum.go. -/
def validLevels : List String :=
  [LevelDisabled, LevelTrace, LevelDebug, LevelInfo, LevelWarning, LevelError, LevelFatal,
    LevelPanic]

/-- A runtime whose operating system refuses to open any path for writing. -/
def rtNoWrite : Runtime :=
  { envParse := fun c => .ok c, openFile := fun _ _ => .error "permission denied",
    growCap := growslice }

/-- A configuration that logs to the file only. -/
def cfgFileOnly : Config := { Output := some ["file"] }

/-- A Logger whose configuration logs to the file only, in JSON, with rotation off. -/
def lgFileNoRotate : Logger :=
  { zlog := none, serviceNames := Slice.nil,
    cfg := { Output := some ["file"], OutputFilePath := "/var/log/app.log",
             OutputFormat := "json", RotateEnabled := false },
    file := none }

/-- Whether a call on an event is one of the two trace fields `addTraceAndSpanID`
writes. -/
def EventOp.isTrace : EventOp → Bool
  | .Str k _ => k = "span_id" || k = "trace_id"
  | _ => false

/-- The same Logger with trace injection switched off in its configuration. -/
def Logger.withoutInjection (l : Logger) : Logger :=
  { l with cfg := { l.cfg with InjectTraceInfo := false } }

/-- A configuration that only names the service "svc". -/
def cfgSvc : Config := { ServiceName := "svc" }

/-- A heap holding the one backing array of a root Logger named "svc". -/
def heapSvc : Heap := [["svc"]]

/-- A root Logger named "svc", as `New` builds it for `cfgSvc`. -/
def rootSvc : Logger :=
  { zlog := some { writers := [some (.console .stdout true RFC3339)], level := .DebugLevel,
                   timestamp := true, callerSkipFrameCount := 4 },
    serviceNames := ⟨0, 1, 1⟩, cfg := cfgSvc.setDefaults, file := none }

/-- A configuration that sets `RotateMaxSizeMB` to 0 and the other two rotation
integers to valid values. -/
def cfgRotateZero : Config :=
  { RotateMaxSizeMB := 0, RotateMaxBackups := 5, RotateMaxAgeDays := 7 }

/-- A configuration built by direct struct construction with an unknown level. -/
def cfgBadLevel : Config := { Level := "verbose" }

/-- A configuration built by direct struct construction with a negative rotation size. -/
def cfgNegativeSize : Config := { RotateMaxSizeMB := -1 }

/-- A configuration whose `Output` is an empty non-nil list. -/
def cfgEmptyOutput : Config := { Output := some [] }

/-- The checks the specification lists for `validate`, in its order: the members of
`Output` in list order, `OutputFormat`, `StdoutFormat`, `StderrFormat`, `FileFormat`,
`Level`, then the three rotation integers. A check that passes gives `none`; a check
that fails gives the message naming the field, its invalid value and the valid values. -/
def validateChecks (c : Config) : List (Option String) :=
  (c.Output.getD []).map (fun op =>
      if op ∈ [OutputStdout, OutputStderr, OutputFile] then none
      else some ("invalid output: " ++ op ++ ", valid values: stdout, stderr, file"))
  ++ [ (if c.OutputFormat ∈ [FormatLogfmt, FormatLogfmtNoColor, FormatJSON] then none
        else some ("invalid output format: " ++ c.OutputFormat
          ++ ", valid values: logfmt, logfmt_no_color, json")),
       (if c.StdoutFormat ∈ [FormatLogfmt, FormatLogfmtNoColor, FormatJSON, ""] then none
        else some ("invalid stdout format: " ++ c.StdoutFormat
          ++ ", valid values: logfmt, logfmt_no_color, json, empty")),
       (if c.StderrFormat ∈ [FormatLogfmt, FormatLogfmtNoColor, FormatJSON, ""] then none
        else some ("invalid stderr format: " ++ c.StderrFormat
          ++ ", valid values: logfmt, logfmt_no_color, json, empty")),
       (if c.FileFormat ∈ [FormatLogfmt, FormatLogfmtNoColor, FormatJSON, ""] then none
        else some ("invalid file format: " ++ c.FileFormat
          ++ ", valid values: logfmt, logfmt_no_color, json, empty")),
       (if c.Level ∈ [LevelDisabled, LevelTrace, LevelDebug, LevelInfo, LevelWarning,
            LevelError, LevelFatal, LevelPanic] then none
        else some ("invalid level: " ++ c.Level
          ++ ", valid values: disabled, trace, debug, info, warning, error, fatal, panic")),
       (if 1 ≤ c.RotateMaxSizeMB then none
        else some ("invalid rotate max size mb: " ++ toString c.RotateMaxSizeMB
          ++ ", valid values: >= 1")),
       (if 1 ≤ c.RotateMaxBackups then none
        else some ("invalid rotate max backups: " ++ toString c.RotateMaxBackups
          ++ ", valid values: >= 1")),
       (if 1 ≤ c.RotateMaxAgeDays then none
        else some ("invalid rotate max age days: " ++ toString c.RotateMaxAgeDays
          ++ ", valid values: >= 1")) ]

/-- The outcome of a list of checks run fail-fast: the error of the first check that
fails, and no error when none fails. -/
def firstError (checks : List (Option String)) : Except String Unit :=
  match checks.findSome? id with
  | some e => .error e
  | none => .ok ()

/-- Fail-fast validation as the specification words it: the error of the first failing
check of `validateChecks`, and no error when no check fails. -/
def validateSpec (c : Config) : Except String Unit :=
  firstError (validateChecks c)

/-- A configuration with two invalid fields: the output format and the level. -/
def cfgTwoInvalid : Config :=
  { Output := some ["stdout"], OutputFormat := "xml", Level := "verbose",
    RotateMaxSizeMB := 10, RotateMaxBackups := 3, RotateMaxAgeDays := 28 }

/-- A close operation that fails on every handle. -/
def closeFails : File → Except String Unit := fun _ => .error "close failed"

/-- A root Logger that owns a rotation sink, as `New` builds it for `cfgFileOnly`. -/
def rootWithFile : Logger :=
  { zlog := some { writers := [some (.console (.file (.lumberjack 0 "./app.log" 10 3 28 true))
                                  true RFC3339)],
                   level := .DebugLevel, timestamp := true, callerSkipFrameCount := 4 },
    serviceNames := ⟨0, 1, 1⟩, cfg := cfgFileOnly.setDefaults,
    file := some (.lumberjack 0 "./app.log" 10 3 28 true) }

/-- A configuration whose `Output` names stdout and a target that does not exist. -/
def cfgUnknownOutput : Config := { Output := some ["stdout", "syslog"] }

/-- A configuration whose `Output` names the file twice. -/
def cfgFileTwice : Config := { Output := some ["file", "file"] }

/-- A close operation that succeeds on every handle. -/
def closeOk : File → Except String Unit := fun _ => .ok ()

/-- The configuration `New` defaults: the one it was given, or, when the internal flag
asks for the environment, the one the environment binder returns, with the flag set. -/
def configAfterEnv (rt : Runtime) (cfg : Config) : Except String Config :=
  if cfg.parseEnv then
    match parseEnv rt cfg with
    | .error e => .error ("parseEnv: " ++ e)
    | .ok c => .ok { c with parseEnv := true }
  else .ok cfg

/-- The Logger `New` returns for `DefaultConfig`. -/
def lgDefault : Logger :=
  { zlog := some { writers := [some (.console .stdout true RFC3339)], level := .DebugLevel,
                   timestamp := true, callerSkipFrameCount := 4 },
    serviceNames := ⟨0, 1, 1⟩, cfg := DefaultConfig.setDefaults, file := none }

/-- A segment sequence in good order: the slice is well formed, holds at least one
segment, and none of its segments is empty or contains "/". -/
def Slice.Good (h : Heap) (s : Slice) : Prop :=
  s.WF h ∧ 0 < s.len ∧ ∀ x ∈ s.read h, x ≠ "" ∧ '/' ∉ x.data

/-- The heaps and Loggers a program can reach with `New` and `Sub` when no service name
it passes contains "/": it starts with no Logger, `New` adds the Logger it returns, and
`Sub` on a Logger it has adds the Logger `Sub` returns. -/
inductive Reachable (rt : Runtime) : Heap → List Logger → Prop where
  | start (h : Heap) : Reachable rt h []
  | new (h : Heap) (ls : List Logger) (c : Config) (h1 : Heap) (lg : Logger) :
      Reachable rt h ls → New rt h c = .ok (h1, lg) → '/' ∉ lg.cfg.ServiceName.data →
      Reachable rt h1 (lg :: ls)
  | sub (h : Heap) (ls : List Logger) (l : Logger) (name : String) :
      Reachable rt h ls → l ∈ ls → '/' ∉ name.data →
      Reachable rt (Sub rt h l name).1 ((Sub rt h l name).2 :: ls)

end logger

namespace logger

/-! ## Theorems -/

/-! ### The heap: what `append` changes and what it leaves alone -/

theorem take_set_of_le (l : List String) (x : String) :
    ∀ m n : Nat, m ≤ n → (l.set n x).take m = l.take m := by
  induction l with
  | nil => intro m n _; simp
  | cons a t ih =>
    intro m n hmn
    cases m with
    | zero => simp
    | succ m =>
      cases n with
      | zero => omega
      | succ n => simp [ih m n (by omega)]

theorem take_set_succ (l : List String) (x : String) :
    ∀ n : Nat, n < l.length → (l.set n x).take (n + 1) = l.take n ++ [x] := by
  induction l with
  | nil => intro n hn; simp at hn
  | cons a t ih =>
    intro n hn
    cases n with
    | zero => simp
    | succ n => simp [ih n (by simpa using hn)]

theorem backing_set_self (h : Heap) (a : Nat) (v : List String) (ha : a < h.length) :
    backing (h.set a v) a = v := by
  simp [backing, List.getD, ha]

theorem backing_append_new (h : Heap) (v : List String) :
    backing (h ++ [v]) h.length = v := by
  simp [backing, List.getD]

theorem backing_append_old (h : Heap) (v : List String) (a : Nat) (ha : a < h.length) :
    backing (h ++ [v]) a = backing h a := by
  simp [backing, List.getD, List.getElem?_append_left ha]

theorem backing_of_le (h : Heap) (a : Nat) (ha : h.length ≤ a) : backing h a = [] := by
  simp [backing, List.getD, List.getElem?_eq_none ha]

theorem backing_length_pos (h : Heap) (a : Nat) (hpos : 0 < (backing h a).length) :
    a < h.length := by
  by_contra hge
  rw [backing_of_le h a (not_lt.mp hge)] at hpos
  simp at hpos

theorem read_length (h : Heap) (s : Slice) (hwf : s.WF h) : (s.read h).length = s.len := by
  unfold Slice.read
  have h1 := hwf.1
  have h2 := hwf.2
  rw [List.length_take]
  omega

/-- The slice `append` returns denotes the old elements followed by the new one. -/
theorem read_goAppend (rt : Runtime) (h : Heap) (s : Slice) (x : String) (hwf : s.WF h) :
    (goAppend rt h s x).2.read (goAppend rt h s x).1 = s.read h ++ [x] := by
  unfold goAppend
  by_cases hc : s.len < s.cap
  · have hlen : s.len < (backing h s.arr).length := lt_of_lt_of_le hc hwf.2
    have ha : s.arr < h.length := backing_length_pos h s.arr (by omega)
    simp only [hc, if_true, Slice.read]
    rw [backing_set_self h s.arr _ ha, take_set_succ _ _ _ hlen]
  · simp only [hc, if_false]
    show (backing (h ++ [_]) h.length).take (s.len + 1) = _
    have hl : (s.read h ++ [x]).length = s.len + 1 := by simp [read_length h s hwf]
    rw [backing_append_new, List.take_append_of_le_length (le_of_eq hl.symm),
      List.take_of_length_le (le_of_eq hl)]

/-- The slice that was appended to still denotes the same elements afterwards. -/
theorem read_goAppend_self (rt : Runtime) (h : Heap) (s : Slice) (x : String)
    (hwf : s.WF h) : s.read (goAppend rt h s x).1 = s.read h := by
  unfold goAppend
  by_cases hc : s.len < s.cap
  · have hlen : s.len < (backing h s.arr).length := lt_of_lt_of_le hc hwf.2
    have ha : s.arr < h.length := backing_length_pos h s.arr (by omega)
    simp only [hc, if_true, Slice.read]
    rw [backing_set_self h s.arr _ ha, take_set_of_le _ _ _ _ (le_refl _)]
  · simp only [hc, if_false, Slice.read]
    by_cases ha : s.arr < h.length
    · rw [backing_append_old h _ s.arr ha]
    · have h1 := hwf.1
      have h2 := hwf.2
      rw [backing_of_le h s.arr (not_lt.mp ha)] at h2
      have h0 : s.len = 0 := by
        simp at h2
        omega
      simp [h0]

/-- The slice `append` returns is well formed in the new heap. -/
theorem WF_goAppend (rt : Runtime) (h : Heap) (s : Slice) (x : String) (hwf : s.WF h) :
    (goAppend rt h s x).2.WF (goAppend rt h s x).1 := by
  unfold goAppend
  by_cases hc : s.len < s.cap
  · have hlen : s.len < (backing h s.arr).length := lt_of_lt_of_le hc hwf.2
    have ha : s.arr < h.length := backing_length_pos h s.arr (by omega)
    simp only [hc, if_true, Slice.WF]
    rw [backing_set_self h s.arr _ ha, List.length_set]
    exact ⟨hc, hwf.2⟩
  · simp only [hc, if_false, Slice.WF]
    rw [backing_append_new]
    have hl := read_length h s hwf
    simp only [List.length_append, List.length_replicate, List.length_singleton, hl]
    omega

theorem len_goAppend (rt : Runtime) (h : Heap) (s : Slice) (x : String) :
    (goAppend rt h s x).2.len = s.len + 1 := by
  unfold goAppend
  by_cases hc : s.len < s.cap <;> simp [hc]

/-- The nil slice is well formed in every heap. -/
theorem WF_nil (h : Heap) : Slice.nil.WF h := by
  simp [Slice.WF, Slice.nil]

/-! ### Defaulting and construction -/

theorem cmpOr_pair (a b : String) : cmpOr "" [a, b] = if a = "" then b else a := by
  by_cases ha : a = "" <;> by_cases hb : b = "" <;> simp [cmpOr, ha, hb]

theorem cmpOr_bool_true (a : Bool) : cmpOr false [a, true] = true := by
  cases a <;> simp [cmpOr]

theorem cmpOr_int (a d : Int) (hd : d ≠ 0) : cmpOr 0 [a, d] = if a = 0 then d else a := by
  by_cases ha : a = 0 <;> simp [cmpOr, ha, hd]

theorem setDefaults_ServiceName_ne (c : Config) : c.setDefaults.ServiceName ≠ "" := by
  simp only [Config.setDefaults, cmpOr_pair]
  by_cases hs : c.ServiceName = "" <;> simp [hs]

/-- What `New` computes for a configuration that does not ask for the environment: the
configuration is defaulted, the validator passes, the service name is appended to the
nil slice and the writers of the defaulted configuration decide the outcome. -/
theorem New_of_parseEnv_false (rt : Runtime) (h : Heap) (c : Config)
    (hp : c.parseEnv = false) :
    New rt h c =
      match initWritersLoop rt c.setDefaults (c.setDefaults.Output.getD []) 0 none [] with
      | (_, .error e) => .error ("initZerolog: " ++ ("initWriters: " ++ e))
      | (f, .ok ws) =>
        .ok ((goAppend rt h Slice.nil c.setDefaults.ServiceName).1,
          { zlog := some { writers := ws, level := getZerologLevel c.setDefaults.Level,
                           timestamp := true, callerSkipFrameCount := 4 },
            serviceNames := (goAppend rt h Slice.nil c.setDefaults.ServiceName).2,
            cfg := c.setDefaults, file := f }) := by
  have hne := setDefaults_ServiceName_ne c
  simp only [New, hp, vldStruct, initZerolog, initWriters, hne]
  rcases hr : initWritersLoop rt c.setDefaults (c.setDefaults.Output.getD []) 0 none []
    with ⟨f, r⟩
  cases r <;> simp [hr, hne]

/-- C1: for the configuration `DefaultConfig()` returns, `New` succeeds (whatever the
collaborators and the heap), and the configuration the Logger holds has the documented
defaults; the effective stdout format is logfmt_no_color and the engine writes through
one uncoloured console writer on stdout at level debug. -/
theorem C1_new_default_config (rt : Runtime) (h : Heap) :
    ∃ h1 lg, New rt h DefaultConfig = .ok (h1, lg)
      ∧ lg.cfg.ServiceName = "unnamed-service"
      ∧ lg.cfg.Output = some [OutputStdout]
      ∧ lg.cfg.OutputFilePath = "./app.log"
      ∧ lg.cfg.OutputFormat = FormatLogfmtNoColor
      ∧ lg.cfg.StdoutFormat = "" ∧ lg.cfg.StderrFormat = "" ∧ lg.cfg.FileFormat = ""
      ∧ cmpOr "" [lg.cfg.StdoutFormat, lg.cfg.OutputFormat] = FormatLogfmtNoColor
      ∧ lg.cfg.Level = LevelDebug
      ∧ lg.cfg.RotateEnabled = true
      ∧ lg.cfg.RotateMaxSizeMB = 10
      ∧ lg.cfg.RotateMaxBackups = 3
      ∧ lg.cfg.RotateMaxAgeDays = 28
      ∧ lg.cfg.RotateCompress = true
      ∧ lg.cfg.InjectTraceInfo = true
      ∧ lg.zlog = some { writers := [some (.console .stdout true RFC3339)],
                         level := .DebugLevel, timestamp := true,
                         callerSkipFrameCount := 4 } := by
  simp [New, DefaultConfig, Config.setDefaults, cmpOr, vldStruct, initZerolog, initWriters,
    initWritersLoop, format, getZerologLevel, FormatLogfmtNoColor, LevelDebug, OutputStdout]
  exact ⟨_, _, ⟨rfl, rfl⟩, by simp⟩

/-- C2 (counterexample): `RotateMaxSizeMB = 0` is less than 1, yet `New` returns a
Logger: defaulting turns the 0 into 10 before anything is checked. -/
theorem C2_counterexample_zero_is_defaulted :
    cfgRotateZero.RotateMaxSizeMB < 1
      ∧ ∃ h1 lg, New goRuntime [] cfgRotateZero = .ok (h1, lg)
          ∧ lg.cfg.RotateMaxSizeMB = 10 := by
  refine ⟨by decide, ?_⟩
  simp [New, cfgRotateZero, goRuntime, Config.setDefaults, cmpOr, vldStruct, initZerolog,
    initWriters, initWritersLoop, format, getZerologLevel, FormatLogfmtNoColor, LevelDebug,
    OutputStdout]
  exact ⟨_, _, ⟨rfl, rfl⟩, by simp⟩

/-- C2 (amended): a configuration in which a rotation integer is less than 1 is rejected
by `Config.validate`. `setDefaults`, which `New` runs first, replaces a rotation integer
of 0 by its default (10, 3, 28) and keeps every other value, so after defaulting
`validate` still rejects the configuration whenever a rotation integer was negative. -/
theorem C2_validate_rejects_rotation_below_one (c : Config)
    (hlt : c.RotateMaxSizeMB < 1 ∨ c.RotateMaxBackups < 1 ∨ c.RotateMaxAgeDays < 1) :
    (∃ e, c.validate = .error e)
      ∧ (c.setDefaults.RotateMaxSizeMB = if c.RotateMaxSizeMB = 0 then 10 else c.RotateMaxSizeMB)
      ∧ (c.setDefaults.RotateMaxBackups
          = if c.RotateMaxBackups = 0 then 3 else c.RotateMaxBackups)
      ∧ (c.setDefaults.RotateMaxAgeDays
          = if c.RotateMaxAgeDays = 0 then 28 else c.RotateMaxAgeDays)
      ∧ ((c.RotateMaxSizeMB < 0 ∨ c.RotateMaxBackups < 0 ∨ c.RotateMaxAgeDays < 0) →
          ∃ e, c.setDefaults.validate = .error e) := by
  have key : ∀ d : Config,
      (d.RotateMaxSizeMB < 1 ∨ d.RotateMaxBackups < 1 ∨ d.RotateMaxAgeDays < 1) →
      ∃ e, d.validate = .error e := by
    intro d hd
    unfold Config.validate
    split
    · exact ⟨_, rfl⟩
    · split_ifs with h1 h2 h3 h4 h5 h6 h7 h8
      all_goals first
        | exact ⟨_, rfl⟩
        | (exfalso; omega)
  have hs : c.setDefaults.RotateMaxSizeMB
      = if c.RotateMaxSizeMB = 0 then 10 else c.RotateMaxSizeMB := by
    simp [Config.setDefaults, cmpOr_int]
  have hb : c.setDefaults.RotateMaxBackups
      = if c.RotateMaxBackups = 0 then 3 else c.RotateMaxBackups := by
    simp [Config.setDefaults, cmpOr_int]
  have ha : c.setDefaults.RotateMaxAgeDays
      = if c.RotateMaxAgeDays = 0 then 28 else c.RotateMaxAgeDays := by
    simp [Config.setDefaults, cmpOr_int]
  refine ⟨key c hlt, hs, hb, ha, ?_⟩
  intro hneg
  apply key
  rw [hs, hb, ha]
  split_ifs <;> omega

/-- C2 (witness): the amended statement at a configuration with `RotateMaxSizeMB = -1`. -/
theorem C2_validate_rejects_rotation_below_one_witness :
    (cfgNegativeSize.RotateMaxSizeMB < 1 ∨ cfgNegativeSize.RotateMaxBackups < 1
        ∨ cfgNegativeSize.RotateMaxAgeDays < 1)
      ∧ (∃ e, cfgNegativeSize.setDefaults.validate = .error e) :=
  ⟨Or.inl (by decide),
    (C2_validate_rejects_rotation_below_one cfgNegativeSize (Or.inl (by decide))).2.2.2.2
      (Or.inl (by decide))⟩

/-- C3 (the code at the failing inputs): `New` returns a Logger for a configuration with
an unknown level, for one with a negative rotation size and for one with an empty
non-nil `Output`; the Logger holds the invalid value unchanged. `Config.validate`
rejects the first two after defaulting, but `New` never calls it. -/
theorem C3_new_accepts_invalid_configuration :
    (∃ h1 lg, New goRuntime [] cfgBadLevel = .ok (h1, lg) ∧ lg.cfg.Level = "verbose")
      ∧ cfgBadLevel.setDefaults.validate = .error
          "invalid level: verbose, valid values: disabled, trace, debug, info, warning, error, fatal, panic"
      ∧ (∃ h1 lg, New goRuntime [] cfgNegativeSize = .ok (h1, lg)
          ∧ lg.cfg.RotateMaxSizeMB = -1)
      ∧ cfgNegativeSize.setDefaults.validate = .error
          "invalid rotate max size mb: -1, valid values: >= 1"
      ∧ (∃ h1 lg, New goRuntime [] cfgEmptyOutput = .ok (h1, lg)
          ∧ lg.cfg.Output = some []) := by
  refine ⟨?_, by rfl, ?_, by rfl, ?_⟩
  · simp [New, cfgBadLevel, goRuntime, Config.setDefaults, cmpOr, vldStruct, initZerolog,
      initWriters, initWritersLoop, format, getZerologLevel, FormatLogfmtNoColor, LevelDebug,
      OutputStdout]
    exact ⟨_, _, ⟨rfl, rfl⟩, by simp⟩
  · simp [New, cfgNegativeSize, goRuntime, Config.setDefaults, cmpOr, vldStruct, initZerolog,
      initWriters, initWritersLoop, format, getZerologLevel, FormatLogfmtNoColor, LevelDebug,
      OutputStdout]
    exact ⟨_, _, ⟨rfl, rfl⟩, by simp⟩
  · simp [New, cfgEmptyOutput, goRuntime, Config.setDefaults, cmpOr, vldStruct, initZerolog,
      initWriters, initWritersLoop, format, getZerologLevel, FormatLogfmtNoColor, LevelDebug,
      OutputStdout]
    exact ⟨_, _, ⟨rfl, rfl⟩, by simp⟩

/-! ### Sub-loggers and the service field -/

theorem Sub_of_ne (rt : Runtime) (h : Heap) (l : Logger) (name : String) (hn : name ≠ "") :
    Sub rt h l name =
      ((goAppend rt h l.serviceNames name).1,
        { zlog := l.zlog, serviceNames := (goAppend rt h l.serviceNames name).2,
          cfg := l.cfg, file := none }) := by
  simp [Sub, hn]

theorem servicePath_Sub (rt : Runtime) (h : Heap) (l : Logger) (name : String)
    (hwf : l.serviceNames.WF h) (hn : name ≠ "") :
    servicePath (Sub rt h l name).1 (Sub rt h l name).2 = servicePath h l ++ [name] := by
  rw [Sub_of_ne rt h l name hn]
  exact read_goAppend rt h l.serviceNames name hwf

theorem servicePath_Sub_self (rt : Runtime) (h : Heap) (l : Logger) (name : String)
    (hwf : l.serviceNames.WF h) : servicePath (Sub rt h l name).1 l = servicePath h l := by
  by_cases hn : name = ""
  · simp [Sub, hn]
  · rw [Sub_of_ne rt h l name hn]
    exact read_goAppend_self rt h l.serviceNames name hwf

theorem WF_Sub (rt : Runtime) (h : Heap) (l : Logger) (name : String)
    (hwf : l.serviceNames.WF h) : (Sub rt h l name).2.serviceNames.WF (Sub rt h l name).1 := by
  by_cases hn : name = ""
  · simpa [Sub, hn] using hwf
  · rw [Sub_of_ne rt h l name hn]
    exact WF_goAppend rt h l.serviceNames name hwf

theorem len_Sub (rt : Runtime) (h : Heap) (l : Logger) (name : String) (hn : name ≠ "") :
    (Sub rt h l name).2.serviceNames.len = l.serviceNames.len + 1 := by
  rw [Sub_of_ne rt h l name hn]
  exact len_goAppend rt h l.serviceNames name

/-- The `service` fields `log` puts on a fresh event: the path joined with "/" when the
path is not empty, and none otherwise. -/
theorem strFields_service_logAt (lvl : ZerologLevel) (h : Heap) (l : Logger)
    (ctx : SpanContext) (msg : String) (fields : List Value) :
    (logAt lvl h l ctx msg fields).strFields "service"
      = if l.serviceNames.len ≠ 0 then [String.intercalate "/" (servicePath h l)] else [] := by
  rcases ctx with ⟨sp, tr⟩
  by_cases hl : l.serviceNames.len = 0 <;> cases hi : l.cfg.InjectTraceInfo <;>
    cases sp <;> cases tr <;>
    simp [logAt, log, addTraceAndSpanID, Event.strFields, servicePath, hl, hi]

/-- The root Logger `New` returns for a configuration that does not ask for the
environment: its service path is the defaulted service name. -/
theorem New_servicePath (rt : Runtime) (h h1 : Heap) (c : Config) (lg : Logger)
    (hp : c.parseEnv = false) (hnew : New rt h c = .ok (h1, lg)) :
    lg.serviceNames.WF h1 ∧ servicePath h1 lg = [c.setDefaults.ServiceName] := by
  rw [New_of_parseEnv_false rt h c hp] at hnew
  rcases hr : initWritersLoop rt c.setDefaults (c.setDefaults.Output.getD []) 0 none []
    with ⟨f, r⟩
  rw [hr] at hnew
  cases r with
  | error e => simp at hnew
  | ok ws =>
    simp only [Except.ok.injEq, Prod.mk.injEq] at hnew
    obtain ⟨h1eq, lgeq⟩ := hnew
    subst h1eq
    subst lgeq
    refine ⟨WF_goAppend rt h Slice.nil _ (WF_nil h), ?_⟩
    have := read_goAppend rt h Slice.nil c.setDefaults.ServiceName (WF_nil h)
    simpa [servicePath, Slice.read, Slice.nil] using this

theorem New_cfgSvc (rt : Runtime) (h0 : Heap) : ∃ hr root, New rt h0 cfgSvc = .ok (hr, root) := by
  simp [New, cfgSvc, Config.setDefaults, cmpOr, vldStruct, initZerolog, initWriters,
    initWritersLoop, format, getZerologLevel, FormatLogfmtNoColor, LevelDebug, OutputStdout]

/-- Two successive `Sub` calls with non-empty names: the paths of the child and of the
grandchild, and the path of the child once the grandchild exists. -/
theorem Sub_Sub_paths (rt : Runtime) (h h1 h2 : Heap) (l la lab : Logger) (a b : String)
    (hwf : l.serviceNames.WF h) (ha : a ≠ "") (hb : b ≠ "")
    (hsa : Sub rt h l a = (h1, la)) (hsb : Sub rt h1 la b = (h2, lab)) :
    servicePath h1 la = servicePath h l ++ [a]
      ∧ servicePath h2 lab = servicePath h l ++ [a, b]
      ∧ servicePath h2 la = servicePath h l ++ [a]
      ∧ la.serviceNames.len ≠ 0 ∧ lab.serviceNames.len ≠ 0 := by
  have e1 := servicePath_Sub rt h l a hwf ha
  have w1 := WF_Sub rt h l a hwf
  have n1 := len_Sub rt h l a ha
  rw [hsa] at e1 w1 n1
  simp only at e1 w1 n1
  have e2 := servicePath_Sub rt h1 la b w1 hb
  have e3 := servicePath_Sub_self rt h1 la b w1
  have n2 := len_Sub rt h1 la b hb
  rw [hsb] at e2 e3 n2
  simp only at e2 e3 n2
  refine ⟨e1, ?_, ?_, by omega, by omega⟩
  · rw [e2, e1, List.append_assoc]; rfl
  · rw [e3, e1]

/-- C4: for a Logger with service path p and non-empty names a and b, `Sub(a)` has path
p ++ [a], `Sub(a).Sub(b)` has path p ++ [a, b], and the `service` field each of them
puts on an event is its path joined with "/"; the `Sub(a)` logger has the same path and
service field after the `Sub(b)` call as before. For a root Logger that `New` builds
with ServiceName "svc", `Sub("a").Sub("b")` emits service "svc/a/b" and the
intermediate `Sub("a")` logger still emits "svc/a". -/
theorem C4_sub_extends_service_path (rt : Runtime) (h h1 h2 : Heap) (l la lab : Logger)
    (a b : String) (lvl : ZerologLevel) (ctx : SpanContext) (msg : String)
    (fields : List Value)
    (hwf : l.serviceNames.WF h) (ha : a ≠ "") (hb : b ≠ "")
    (hsa : Sub rt h l a = (h1, la)) (hsb : Sub rt h1 la b = (h2, lab)) :
    servicePath h1 la = servicePath h l ++ [a]
      ∧ servicePath h2 lab = servicePath h l ++ [a, b]
      ∧ servicePath h2 la = servicePath h l ++ [a]
      ∧ (logAt lvl h1 la ctx msg fields).strFields "service"
          = [String.intercalate "/" (servicePath h l ++ [a])]
      ∧ (logAt lvl h2 lab ctx msg fields).strFields "service"
          = [String.intercalate "/" (servicePath h l ++ [a, b])]
      ∧ (logAt lvl h2 la ctx msg fields).strFields "service"
          = [String.intercalate "/" (servicePath h l ++ [a])]
      ∧ (∀ h0 : Heap, ∃ hr root hA lA hB lB,
          New rt h0 cfgSvc = .ok (hr, root)
            ∧ Sub rt hr root "a" = (hA, lA) ∧ Sub rt hA lA "b" = (hB, lB)
            ∧ (logAt lvl hB lB ctx msg fields).strFields "service" = ["svc/a/b"]
            ∧ (logAt lvl hB lA ctx msg fields).strFields "service" = ["svc/a"]) := by
  obtain ⟨e1, e2, e3, n1, n2⟩ := Sub_Sub_paths rt h h1 h2 l la lab a b hwf ha hb hsa hsb
  refine ⟨e1, e2, e3, ?_, ?_, ?_, ?_⟩
  · rw [strFields_service_logAt, if_pos n1, e1]
  · rw [strFields_service_logAt, if_pos n2, e2]
  · rw [strFields_service_logAt, if_pos n1, e3]
  · intro h0
    obtain ⟨hr, root, hnew⟩ := New_cfgSvc rt h0
    obtain ⟨wr, pr⟩ := New_servicePath rt h0 hr cfgSvc root rfl hnew
    obtain ⟨c1, c2, c3, m1, m2⟩ :=
      Sub_Sub_paths rt hr _ _ root _ _ "a" "b" wr (by decide) (by decide) rfl rfl
    refine ⟨hr, root, _, _, _, _, hnew, rfl, rfl, ?_, ?_⟩
    · rw [strFields_service_logAt, if_pos m2, c2, pr]; rfl
    · rw [strFields_service_logAt, if_pos m1, c3, pr]; rfl

/-- C4 (witness): the statement at the root Logger named "svc" with the names "a" and
"b". -/
theorem C4_sub_extends_service_path_witness :
    rootSvc.serviceNames.WF heapSvc ∧ "a" ≠ "" ∧ "b" ≠ ""
      ∧ servicePath (Sub goRuntime (Sub goRuntime heapSvc rootSvc "a").1
            (Sub goRuntime heapSvc rootSvc "a").2 "b").1
          (Sub goRuntime (Sub goRuntime heapSvc rootSvc "a").1
            (Sub goRuntime heapSvc rootSvc "a").2 "b").2
        = servicePath heapSvc rootSvc ++ ["a", "b"] :=
  ⟨by decide, by decide, by decide,
    (C4_sub_extends_service_path goRuntime heapSvc _ _ rootSvc _ _ "a" "b" .InfoLevel
      ⟨none, none⟩ "" [] (by decide) (by decide) (by decide) rfl rfl).2.1⟩

/-- C5 (the code at the failing input): `New` with ServiceName "svc" followed by
`Sub("a").Sub("b")` gives a Logger l whose segment slice has length 3 and capacity 4.
`c1 := l.Sub("x")` has path svc, a, b, x; after `c2 := l.Sub("y")` the path of c1 is
svc, a, b, y and c1 emits service "svc/a/b/y": the second `append` wrote into the backing
array that c1 shares with l. -/
theorem C5_second_sub_overwrites_sibling :
    New goRuntime [] cfgSvc = .ok (heapSvc, rootSvc)
      ∧ ∃ hA lA hB l h1 c1 h2 c2,
          Sub goRuntime heapSvc rootSvc "a" = (hA, lA)
            ∧ Sub goRuntime hA lA "b" = (hB, l)
            ∧ l.serviceNames = ⟨2, 3, 4⟩
            ∧ Sub goRuntime hB l "x" = (h1, c1)
            ∧ servicePath h1 c1 = ["svc", "a", "b", "x"]
            ∧ Sub goRuntime h1 l "y" = (h2, c2)
            ∧ servicePath h2 c2 = ["svc", "a", "b", "y"]
            ∧ servicePath h2 c1 = ["svc", "a", "b", "y"]
            ∧ servicePath h2 l = ["svc", "a", "b"]
            ∧ (logAt .InfoLevel h2 c1 ⟨none, none⟩ "m" []).strFields "service"
                = ["svc/a/b/y"] := by
  refine ⟨by rfl, _, _, _, _, _, _, _, _, rfl, rfl, ?_, rfl, ?_, rfl, ?_, ?_, ?_, ?_⟩
  all_goals rfl

/-! ### The writers `initWriters` builds -/

/-- When the loop of `initWriters` succeeds it has appended one writer per remaining
entry of `Output`, in order: for stdout, stderr and file the destination wrapped in the
format resolved from that target's own override and `OutputFormat`, and a nil writer for
any other entry. -/
theorem initWritersLoop_ok (rt : Runtime) (cfg : Config) :
    ∀ (outs : List String) (n : Nat) (file : Option File) (ws0 : List (Option Writer))
      (f : Option File) (ws : List (Option Writer)),
      initWritersLoop rt cfg outs n file ws0 = (f, .ok ws) →
      ∃ new : List (Option Writer), ws = ws0 ++ new ∧ new.length = outs.length ∧
        ∀ (i : Nat) (op : String), outs[i]? = some op →
          ∃ w, new[i]? = some w ∧ SinkOf rt cfg (n + i) op w := by
  intro outs
  induction outs with
  | nil =>
    intro n file ws0 f ws hrun
    simp only [initWritersLoop, Prod.mk.injEq, Except.ok.injEq] at hrun
    exact ⟨[], by simp [hrun.2], rfl, by intro i op hi; simp at hi⟩
  | cons o rest ih =>
    intro n file ws0 f ws hrun
    have step : ∀ (w : Option Writer) (file1 : Option File),
        initWritersLoop rt cfg rest (n + 1) file1 (ws0 ++ [w]) = (f, .ok ws) →
        SinkOf rt cfg n o w →
        ∃ new : List (Option Writer), ws = ws0 ++ new ∧ new.length = (o :: rest).length ∧
          ∀ (i : Nat) (op : String), (o :: rest)[i]? = some op →
            ∃ w, new[i]? = some w ∧ SinkOf rt cfg (n + i) op w := by
      intro w file1 hrest hw
      obtain ⟨new, hws, hlen, hall⟩ := ih _ _ _ _ _ hrest
      refine ⟨w :: new, by simp [hws], by simp [hlen], ?_⟩
      intro i op hi
      cases i with
      | zero =>
        simp only [List.getElem?_cons_zero, Option.some.injEq] at hi
        subst hi
        exact ⟨w, by simp, hw⟩
      | succ j =>
        simp only [List.getElem?_cons_succ] at hi ⊢
        have := hall j op hi
        rwa [show n + 1 + j = n + (j + 1) by omega] at this
    rw [initWritersLoop] at hrun
    by_cases h1 : o = "stdout"
    · rw [if_pos h1] at hrun
      by_cases hf : cmpOr "" [cfg.StdoutFormat, cfg.OutputFormat] = ""
      · simp [hf] at hrun
      · simp only [hf, if_false] at hrun
        refine step _ _ hrun ?_
        subst h1
        simp [SinkOf, cmpOr_pair]
    · rw [if_neg h1] at hrun
      by_cases h2 : o = "stderr"
      · rw [if_pos h2] at hrun
        by_cases hf : cmpOr "" [cfg.StderrFormat, cfg.OutputFormat] = ""
        · simp [hf] at hrun
        · simp only [hf, if_false] at hrun
          refine step _ _ hrun ?_
          subst h2
          simp [SinkOf, cmpOr_pair]
      · rw [if_neg h2] at hrun
        by_cases h3 : o = "file"
        · rw [if_pos h3] at hrun
          by_cases hf : cmpOr "" [cfg.FileFormat, cfg.OutputFormat] = ""
          · simp [hf] at hrun
          · simp only [hf, if_false] at hrun
            cases hfile : initFile rt cfg n with
            | error e => simp [hfile] at hrun
            | ok fl =>
              simp only [hfile] at hrun
              refine step _ _ hrun ?_
              subst h3
              simp only [SinkOf, cmpOr_pair]
              exact ⟨by simp, by simp, fun _ => ⟨fl, hfile, rfl⟩, by simp⟩
        · rw [if_neg h3] at hrun
          refine step _ _ hrun ?_
          simp [SinkOf, h1, h2, h3]

/-- The writers of a successful `initWriters`, entry by entry. -/
theorem initWriters_ok (rt : Runtime) (l : Logger) (ws : List (Option Writer))
    (hok : (initWriters rt l).2 = .ok ws) :
    ws.length = (l.cfg.Output.getD []).length ∧
      ∀ (i : Nat) (op : String), (l.cfg.Output.getD [])[i]? = some op →
        ∃ w, ws[i]? = some w ∧ SinkOf rt l.cfg i op w := by
  have hrun : initWritersLoop rt l.cfg (l.cfg.Output.getD []) 0 l.file []
      = ((initWritersLoop rt l.cfg (l.cfg.Output.getD []) 0 l.file []).1, .ok ws) := by
    simp only [initWriters] at hok
    rw [← hok]
  obtain ⟨new, hws, hlen, hall⟩ := initWritersLoop_ok rt l.cfg _ _ _ _ _ _ hrun
  simp only [List.nil_append] at hws
  subst hws
  refine ⟨hlen, ?_⟩
  intro i op hi
  simpa using hall i op hi

/-- C6: when `initWriters` succeeds, the sink of every stdout entry of `Output` is stdout
wrapped in `StdoutFormat` when that is not empty and in `OutputFormat` otherwise, and
likewise for stderr with `StderrFormat` and for file with `FileFormat`; changing the
overrides of the other two targets leaves the sink of a target as it is. -/
theorem C6_per_target_format (rt : Runtime) (l : Logger) (ws : List (Option Writer))
    (i : Nat) (hok : (initWriters rt l).2 = .ok ws) :
    ((l.cfg.Output.getD [])[i]? = some "stdout" →
        ws[i]? = some (some (format
          (if l.cfg.StdoutFormat ≠ "" then l.cfg.StdoutFormat else l.cfg.OutputFormat) .stdout)))
      ∧ ((l.cfg.Output.getD [])[i]? = some "stderr" →
        ws[i]? = some (some (format
          (if l.cfg.StderrFormat ≠ "" then l.cfg.StderrFormat else l.cfg.OutputFormat) .stderr)))
      ∧ ((l.cfg.Output.getD [])[i]? = some "file" →
        ∃ fl, initFile rt l.cfg i = .ok fl ∧ ws[i]? = some (some (format
          (if l.cfg.FileFormat ≠ "" then l.cfg.FileFormat else l.cfg.OutputFormat) (.file fl))))
      ∧ (∀ (x y : String) (ws1 : List (Option Writer)),
          (initWriters rt { l with cfg := { l.cfg with StderrFormat := x, FileFormat := y } }).2
            = .ok ws1 →
          (l.cfg.Output.getD [])[i]? = some "stdout" → ws1[i]? = ws[i]?)
      ∧ (∀ (x y : String) (ws1 : List (Option Writer)),
          (initWriters rt { l with cfg := { l.cfg with StdoutFormat := x, FileFormat := y } }).2
            = .ok ws1 →
          (l.cfg.Output.getD [])[i]? = some "stderr" → ws1[i]? = ws[i]?)
      ∧ (∀ (x y : String) (ws1 : List (Option Writer)),
          (initWriters rt { l with cfg := { l.cfg with StdoutFormat := x, StderrFormat := y } }).2
            = .ok ws1 →
          (l.cfg.Output.getD [])[i]? = some "file" → ws1[i]? = ws[i]?) := by
  obtain ⟨_, hall⟩ := initWriters_ok rt l ws hok
  have hout : ∀ t : String, (l.cfg.Output.getD [])[i]? = some t →
      (t = "stdout" → ws[i]? = some (some (format
          (if l.cfg.StdoutFormat ≠ "" then l.cfg.StdoutFormat else l.cfg.OutputFormat) .stdout)))
      ∧ (t = "stderr" → ws[i]? = some (some (format
          (if l.cfg.StderrFormat ≠ "" then l.cfg.StderrFormat else l.cfg.OutputFormat) .stderr)))
      ∧ (t = "file" → ∃ fl, initFile rt l.cfg i = .ok fl ∧ ws[i]? = some (some (format
          (if l.cfg.FileFormat ≠ "" then l.cfg.FileFormat else l.cfg.OutputFormat)
            (.file fl)))) := by
    intro t ht
    obtain ⟨w, hw, hs1, hs2, hs3, _⟩ := hall i t ht
    refine ⟨?_, ?_, ?_⟩
    · intro h; rw [hw, hs1 h]; simp only [ne_eq, ite_not]
    · intro h; rw [hw, hs2 h]; simp only [ne_eq, ite_not]
    · intro h
      obtain ⟨fl, hfl, hwf⟩ := hs3 h
      exact ⟨fl, hfl, by rw [hw, hwf]; simp only [ne_eq, ite_not]⟩
  refine ⟨fun h => (hout _ h).1 rfl, fun h => (hout _ h).2.1 rfl,
    fun h => (hout _ h).2.2 rfl, ?_, ?_, ?_⟩
  · intro x y ws1 hok1 hi
    obtain ⟨_, hall1⟩ := initWriters_ok rt _ ws1 hok1
    obtain ⟨w1, hw1, hs1, _⟩ := hall1 i "stdout" hi
    rw [hw1, hs1 rfl, (hout _ hi).1 rfl]
    simp only [ne_eq, ite_not]
  · intro x y ws1 hok1 hi
    obtain ⟨_, hall1⟩ := initWriters_ok rt _ ws1 hok1
    obtain ⟨w1, hw1, _, hs2, _⟩ := hall1 i "stderr" hi
    rw [hw1, hs2 rfl, (hout _ hi).2.1 rfl]
    simp only [ne_eq, ite_not]
  · intro x y ws1 hok1 hi
    obtain ⟨_, hall1⟩ := initWriters_ok rt _ ws1 hok1
    obtain ⟨w1, hw1, _, _, hs3, _⟩ := hall1 i "file" hi
    obtain ⟨fl1, hfl1, hwf1⟩ := hs3 rfl
    obtain ⟨fl, hfl, hwf⟩ := (hout _ hi).2.2 rfl
    have hsame : initFile rt { l.cfg with StdoutFormat := x, StderrFormat := y } i
        = initFile rt l.cfg i := rfl
    rw [hsame, hfl] at hfl1
    cases hfl1
    rw [hw1, hwf1, hwf]
    simp only [ne_eq, ite_not]

/-- C6 (witness): for the configuration of `TestLogger_WithEnv` the sink of the stdout
entry is the uncoloured console writer of the stdout override. -/
theorem C6_per_target_format_witness :
    (initWriters goRuntime lgEnvTest).2
        = .ok [some (.console .stdout true RFC3339),
               some (.file (.lumberjack 1 "./app.log" 10 3 28 true))]
      ∧ (lgEnvTest.cfg.Output.getD [])[0]? = some "stdout"
      ∧ [some (Writer.console .stdout true RFC3339),
          some (Writer.file (.lumberjack 1 "./app.log" 10 3 28 true))][0]?
          = some (some (format
              (if lgEnvTest.cfg.StdoutFormat ≠ "" then lgEnvTest.cfg.StdoutFormat
                else lgEnvTest.cfg.OutputFormat) .stdout)) :=
  ⟨rfl, rfl, (C6_per_target_format goRuntime lgEnvTest _ 0 rfl).1 rfl⟩

/-! ### Validation -/

/-- `validate` returns no error exactly when every one of its checks passes. -/
theorem validate_ok_iff (c : Config) :
    c.validate = .ok () ↔
      validateOutput (c.Output.getD []) = .ok ()
      ∧ (c.OutputFormat = FormatLogfmt ∨ c.OutputFormat = FormatLogfmtNoColor
          ∨ c.OutputFormat = FormatJSON)
      ∧ (c.StdoutFormat = FormatLogfmt ∨ c.StdoutFormat = FormatLogfmtNoColor
          ∨ c.StdoutFormat = FormatJSON ∨ c.StdoutFormat = "")
      ∧ (c.StderrFormat = FormatLogfmt ∨ c.StderrFormat = FormatLogfmtNoColor
          ∨ c.StderrFormat = FormatJSON ∨ c.StderrFormat = "")
      ∧ (c.FileFormat = FormatLogfmt ∨ c.FileFormat = FormatLogfmtNoColor
          ∨ c.FileFormat = FormatJSON ∨ c.FileFormat = "")
      ∧ (c.Level = LevelDisabled ∨ c.Level = LevelTrace ∨ c.Level = LevelDebug
          ∨ c.Level = LevelInfo ∨ c.Level = LevelWarning ∨ c.Level = LevelError
          ∨ c.Level = LevelFatal ∨ c.Level = LevelPanic)
      ∧ 1 ≤ c.RotateMaxSizeMB ∧ 1 ≤ c.RotateMaxBackups ∧ 1 ≤ c.RotateMaxAgeDays := by
  unfold Config.validate
  cases hv : validateOutput (c.Output.getD []) with
  | error e => simp
  | ok u =>
    simp only [true_and]
    split_ifs with h1 h2 h3 h4 h5 h6 h7 h8
    all_goals simp_all


/-- C7: for a configuration whose other fields pass validation (it validates once its
level is set to debug), `validate` returns no error when the level is one of the eight
valid levels, and for every other string, the empty one included, it returns the error
"invalid level: <level>, valid values: ...", whose message contains the offending
value. -/
theorem C7_validate_level (c : Config) (lv : String)
    (hother : ({ c with Level := LevelDebug }).validate = .ok ()) :
    (lv ∈ validLevels → ({ c with Level := lv }).validate = .ok ())
      ∧ (lv ∉ validLevels →
          ({ c with Level := lv }).validate = .error ("invalid level: " ++ lv
            ++ ", valid values: disabled, trace, debug, info, warning, error, fatal, panic")
          ∧ ∃ msg pre post, ({ c with Level := lv }).validate = .error msg
              ∧ msg = pre ++ lv ++ post) := by
  obtain ⟨ho, hf, hso, hse, hfi, _, h1, h2, h3⟩ := (validate_ok_iff _).mp hother
  simp only at ho hf hso hse hfi h1 h2 h3
  constructor
  · intro hin
    apply (validate_ok_iff _).mpr
    refine ⟨ho, hf, hso, hse, hfi, ?_, h1, h2, h3⟩
    simpa [validLevels] using hin
  · intro hnot
    have hlv : ¬ (lv = LevelDisabled ∨ lv = LevelTrace ∨ lv = LevelDebug ∨ lv = LevelInfo
        ∨ lv = LevelWarning ∨ lv = LevelError ∨ lv = LevelFatal ∨ lv = LevelPanic) := by
      simpa [validLevels] using hnot
    have hval : ({ c with Level := lv }).validate = .error ("invalid level: " ++ lv
        ++ ", valid values: disabled, trace, debug, info, warning, error, fatal, panic") := by
      unfold Config.validate
      simp only [ho]
      rw [if_neg (not_not.mpr hf), if_neg (not_not.mpr hso), if_neg (not_not.mpr hse),
        if_neg (not_not.mpr hfi), if_pos hlv]
    exact ⟨hval, _, "invalid level: ",
      ", valid values: disabled, trace, debug, info, warning, error, fatal, panic", hval, rfl⟩

/-- C7 (witness): the defaulted default configuration validates at level debug;
"info" is accepted and "verbose" is rejected by name. -/
theorem C7_validate_level_witness :
    ({ DefaultConfig.setDefaults with Level := LevelDebug }).validate = .ok ()
      ∧ ({ DefaultConfig.setDefaults with Level := "verbose" }).validate
          = .error ("invalid level: " ++ "verbose"
            ++ ", valid values: disabled, trace, debug, info, warning, error, fatal, panic") :=
  ⟨rfl, ((C7_validate_level DefaultConfig.setDefaults "verbose" rfl).2 (by decide)).1⟩

/-! ### Opening the file -/

/-- With rotation off and an operating system that cannot open the path, the loop of
`initWriters` fails as soon as `Output` has a file entry left (if not before). -/
theorem initWritersLoop_error_of_file (rt : Runtime) (cfg : Config)
    (hrot : cfg.RotateEnabled = false)
    (hopen : ∀ n, ∃ e, rt.openFile n cfg.OutputFilePath = .error e) :
    ∀ (outs : List String) (n : Nat) (file : Option File) (ws0 : List (Option Writer)),
      "file" ∈ outs → ∃ e, (initWritersLoop rt cfg outs n file ws0).2 = .error e := by
  intro outs
  induction outs with
  | nil => intro n file ws0 hmem; simp at hmem
  | cons o rest ih =>
    intro n file ws0 hmem
    rw [initWritersLoop]
    by_cases h1 : o = "stdout"
    · have hrest : "file" ∈ rest := by
        rcases List.mem_cons.mp hmem with h | h
        · rw [h1] at h; exact absurd h (by decide)
        · exact h
      rw [if_pos h1]
      by_cases hf : cmpOr "" [cfg.StdoutFormat, cfg.OutputFormat] = ""
      · simp [hf]
      · simp only [hf, if_false]
        exact ih _ _ _ hrest
    · rw [if_neg h1]
      by_cases h2 : o = "stderr"
      · have hrest : "file" ∈ rest := by
          rcases List.mem_cons.mp hmem with h | h
          · rw [h2] at h; exact absurd h (by decide)
          · exact h
        rw [if_pos h2]
        by_cases hf : cmpOr "" [cfg.StderrFormat, cfg.OutputFormat] = ""
        · simp [hf]
        · simp only [hf, if_false]
          exact ih _ _ _ hrest
      · rw [if_neg h2]
        by_cases h3 : o = "file"
        · rw [if_pos h3]
          by_cases hf : cmpOr "" [cfg.FileFormat, cfg.OutputFormat] = ""
          · simp [hf]
          · obtain ⟨e, he⟩ := hopen n
            simp [hf, initFile, hrot, he]
        · rw [if_neg h3]
          have hrest : "file" ∈ rest := by
            rcases List.mem_cons.mp hmem with h | h
            · exact absurd h.symm h3
            · exact h
          exact ih _ _ _ hrest

/-- C8 (counterexample): `Output` is the file alone and the operating system refuses
every open, yet `New` returns a Logger: after defaulting rotation is on, `initFile`
constructs the rotation sink and never opens the path. -/
theorem C8_counterexample_rotation_sink_not_opened :
    "file" ∈ cfgFileOnly.Output.getD []
      ∧ (∀ n, rtNoWrite.openFile n cfgFileOnly.setDefaults.OutputFilePath
          = .error "permission denied")
      ∧ ∃ h1 lg, New rtNoWrite [] cfgFileOnly = .ok (h1, lg)
          ∧ lg.file = some (.lumberjack 0 "./app.log" 10 3 28 true) := by
  refine ⟨by decide, fun _ => rfl, _, _, rfl, rfl⟩

/-- C8 (amended): for every Logger whose configuration has rotation off and a file entry
in `Output`, if the operating system fails to open `OutputFilePath`, then `initFile`
returns an error and so do `initWriters` and `initZerolog`. With rotation on, `initFile`
constructs the rotation sink without opening the path and returns no error. -/
theorem C8_open_failure_without_rotation (rt : Runtime) (l : Logger)
    (hrot : l.cfg.RotateEnabled = false) (hfile : "file" ∈ l.cfg.Output.getD [])
    (hopen : ∀ n, ∃ e, rt.openFile n l.cfg.OutputFilePath = .error e) :
    (∀ n, ∃ e, initFile rt l.cfg n = .error e)
      ∧ (∃ e, (initWriters rt l).2 = .error e)
      ∧ (∃ e, (initZerolog rt l).2 = .error e)
      ∧ (∀ (c : Config) (n : Nat), c.RotateEnabled = true →
          initFile rt c n = .ok (.lumberjack n c.OutputFilePath c.RotateMaxSizeMB
            c.RotateMaxBackups c.RotateMaxAgeDays c.RotateCompress)) := by
  have hw : ∃ e, (initWriters rt l).2 = .error e := by
    simp only [initWriters]
    exact initWritersLoop_error_of_file rt l.cfg hrot hopen _ _ _ _ hfile
  refine ⟨?_, hw, ?_, ?_⟩
  · intro n
    obtain ⟨e, he⟩ := hopen n
    exact ⟨"os.OpenFile: " ++ e, by simp [initFile, hrot, he]⟩
  · obtain ⟨e, he⟩ := hw
    refine ⟨"initWriters: " ++ e, ?_⟩
    unfold initZerolog
    rcases hr : initWriters rt l with ⟨l1, r⟩
    rw [hr] at he
    simp only at he
    subst he
    rfl
  · intro c n hc
    simp [initFile, hc]

/-- C8 (witness): a Logger that logs to the file only with rotation off, on an operating
system that refuses every open. -/
theorem C8_open_failure_without_rotation_witness :
    lgFileNoRotate.cfg.RotateEnabled = false
      ∧ "file" ∈ lgFileNoRotate.cfg.Output.getD []
      ∧ ∃ e, (initZerolog rtNoWrite lgFileNoRotate).2 = .error e :=
  ⟨rfl, by decide,
    (C8_open_failure_without_rotation rtNoWrite lgFileNoRotate rfl (by decide)
      (fun _ => ⟨_, rfl⟩)).2.2.1⟩

/-! ### Trace injection -/

/-- C9: on every logging call the event gets a `span_id` field exactly when
`InjectTraceInfo` is on and the span context has a span ID (the field then holds that
ID), and a `trace_id` field exactly when `InjectTraceInfo` is on and the context has a
trace ID; a context with neither gives an event with no such field; and apart from these
two fields the calls on the event (the service field, the caller's fields, the message)
are those of the same call without trace injection. -/
theorem C9_trace_fields (lvl : ZerologLevel) (h : Heap) (l : Logger) (ctx : SpanContext)
    (msg : String) (fields : List Value) :
    (logAt lvl h l ctx msg fields).strFields "span_id"
        = (if l.cfg.InjectTraceInfo then ctx.spanID.toList else [])
      ∧ (logAt lvl h l ctx msg fields).strFields "trace_id"
        = (if l.cfg.InjectTraceInfo then ctx.traceID.toList else [])
      ∧ ((∃ v, EventOp.Str "span_id" v ∈ (logAt lvl h l ctx msg fields).ops)
          ↔ (l.cfg.InjectTraceInfo = true ∧ ctx.spanID.isSome = true))
      ∧ ((∃ v, EventOp.Str "trace_id" v ∈ (logAt lvl h l ctx msg fields).ops)
          ↔ (l.cfg.InjectTraceInfo = true ∧ ctx.traceID.isSome = true))
      ∧ (logAt lvl h l ⟨none, none⟩ msg fields).strFields "span_id" = []
      ∧ (logAt lvl h l ⟨none, none⟩ msg fields).strFields "trace_id" = []
      ∧ (logAt lvl h l ctx msg fields).ops.filter (fun op => !op.isTrace)
        = (logAt lvl h l.withoutInjection ctx msg fields).ops
      ∧ (logAt lvl h l ctx msg fields).strFields "service"
        = (logAt lvl h l.withoutInjection ctx msg fields).strFields "service"
      ∧ (logAt lvl h l.withoutInjection ctx msg fields).ops
        = (if l.serviceNames.len ≠ 0
            then [EventOp.Str "service" (String.intercalate "/" (servicePath h l))] else [])
          ++ [EventOp.Fields fields, EventOp.Msg msg] := by
  rcases ctx with ⟨sp, tr⟩
  by_cases hl : l.serviceNames.len = 0 <;> cases hi : l.cfg.InjectTraceInfo <;>
    cases sp <;> cases tr <;>
    simp [logAt, log, addTraceAndSpanID, Event.strFields, EventOp.isTrace,
      Logger.withoutInjection, servicePath, hl, hi]

/-! ### The level mapper -/

/-- C10: `getZerologLevel` maps each of the eight levels to its namesake severity of the
engine, no two of the eight levels share a severity, and every string that is not one of
the eight, the empty string included, maps to the info severity. -/
theorem C10_getZerologLevel (s : String) (hs : s ∉ validLevels) :
    getZerologLevel LevelDisabled = .Disabled
      ∧ getZerologLevel LevelTrace = .TraceLevel
      ∧ getZerologLevel LevelDebug = .DebugLevel
      ∧ getZerologLevel LevelInfo = .InfoLevel
      ∧ getZerologLevel LevelWarning = .WarnLevel
      ∧ getZerologLevel LevelError = .ErrorLevel
      ∧ getZerologLevel LevelFatal = .FatalLevel
      ∧ getZerologLevel LevelPanic = .PanicLevel
      ∧ (validLevels.map getZerologLevel).Nodup
      ∧ (∀ a b, a ∈ validLevels → b ∈ validLevels →
          getZerologLevel a = getZerologLevel b → a = b)
      ∧ getZerologLevel s = .InfoLevel := by
  have hnodup : (validLevels.map getZerologLevel).Nodup := by decide
  refine ⟨rfl, rfl, rfl, rfl, rfl, rfl, rfl, rfl, hnodup, ?_, ?_⟩
  · intro a b ha hb hab
    exact List.inj_on_of_nodup_map hnodup ha hb hab
  · simp only [validLevels, List.mem_cons, List.mem_singleton, List.not_mem_nil, or_false,
      not_or] at hs
    obtain ⟨h1, h2, h3, h4, h5, h6, h7, h8⟩ := hs
    unfold getZerologLevel
    simp only [LevelDisabled, LevelTrace, LevelDebug, LevelInfo, LevelWarning, LevelError,
      LevelFatal, LevelPanic] at h1 h2 h3 h4 h5 h6 h7 h8
    simp [h1, h2, h3, h5, h6, h7, h8]

/-- C10 (witness): the empty string is none of the eight levels and maps to info. -/
theorem C10_getZerologLevel_witness :
    "" ∉ validLevels ∧ getZerologLevel "" = .InfoLevel :=
  ⟨by decide, (C10_getZerologLevel "" (by decide)).2.2.2.2.2.2.2.2.2.2⟩

/-! ### Defaulting, field by field -/

/-- What `setDefaults` does to each field: a string or integer field that holds its zero
value gets the documented default and any other value is kept; the three booleans end
up true; a nil `Output` becomes the list with stdout alone and a non-nil one is kept;
the three per-target formats and the internal flag are not touched. -/
theorem setDefaults_fields (c : Config) :
    c.setDefaults.ServiceName = (if c.ServiceName = "" then "unnamed-service" else c.ServiceName)
      ∧ c.setDefaults.Output = (if c.Output = none then some [OutputStdout] else c.Output)
      ∧ c.setDefaults.OutputFilePath
          = (if c.OutputFilePath = "" then "./app.log" else c.OutputFilePath)
      ∧ c.setDefaults.OutputFormat
          = (if c.OutputFormat = "" then FormatLogfmtNoColor else c.OutputFormat)
      ∧ c.setDefaults.Level = (if c.Level = "" then LevelDebug else c.Level)
      ∧ c.setDefaults.RotateMaxSizeMB
          = (if c.RotateMaxSizeMB = 0 then 10 else c.RotateMaxSizeMB)
      ∧ c.setDefaults.RotateMaxBackups
          = (if c.RotateMaxBackups = 0 then 3 else c.RotateMaxBackups)
      ∧ c.setDefaults.RotateMaxAgeDays
          = (if c.RotateMaxAgeDays = 0 then 28 else c.RotateMaxAgeDays)
      ∧ c.setDefaults.RotateEnabled = (if c.RotateEnabled = false then true else c.RotateEnabled)
      ∧ c.setDefaults.RotateCompress
          = (if c.RotateCompress = false then true else c.RotateCompress)
      ∧ c.setDefaults.InjectTraceInfo
          = (if c.InjectTraceInfo = false then true else c.InjectTraceInfo)
      ∧ c.setDefaults.StdoutFormat = c.StdoutFormat
      ∧ c.setDefaults.StderrFormat = c.StderrFormat
      ∧ c.setDefaults.FileFormat = c.FileFormat
      ∧ c.setDefaults.parseEnv = c.parseEnv := by
  refine ⟨?_, rfl, ?_, ?_, ?_, ?_, ?_, ?_, ?_, ?_, ?_, rfl, rfl, rfl, rfl⟩
  · simp [Config.setDefaults, cmpOr_pair]
  · simp [Config.setDefaults, cmpOr_pair]
  · simp [Config.setDefaults, cmpOr_pair]
  · simp [Config.setDefaults, cmpOr_pair]
  · simp [Config.setDefaults, cmpOr_int]
  · simp [Config.setDefaults, cmpOr_int]
  · simp [Config.setDefaults, cmpOr_int]
  · cases h : c.RotateEnabled <;> simp [Config.setDefaults, cmpOr, h]
  · cases h : c.RotateCompress <;> simp [Config.setDefaults, cmpOr, h]
  · cases h : c.InjectTraceInfo <;> simp [Config.setDefaults, cmpOr, h]

/-- Defaulting a field twice is defaulting it once. -/
theorem ite_default_idem {α : Type} [DecidableEq α] (z d a : α) (hd : d ≠ z) :
    (if (if a = z then d else a) = z then d else (if a = z then d else a))
      = (if a = z then d else a) := by
  by_cases h : a = z <;> simp [h, hd]

/-- C11: `setDefaults` is idempotent: applying it twice gives the configuration that
applying it once gives. -/
theorem C11_setDefaults_idempotent (c : Config) :
    c.setDefaults.setDefaults = c.setDefaults := by
  have hf := setDefaults_fields c
  have gf := setDefaults_fields c.setDefaults
  have e1 : c.setDefaults.setDefaults.ServiceName = c.setDefaults.ServiceName := by
    rw [gf.1, hf.1]; exact ite_default_idem _ _ _ (by decide)
  have e2 : c.setDefaults.setDefaults.Output = c.setDefaults.Output := by
    rw [gf.2.1, hf.2.1]; exact ite_default_idem _ _ _ (by decide)
  have e3 : c.setDefaults.setDefaults.OutputFilePath = c.setDefaults.OutputFilePath := by
    rw [gf.2.2.1, hf.2.2.1]; exact ite_default_idem _ _ _ (by decide)
  have e4 : c.setDefaults.setDefaults.OutputFormat = c.setDefaults.OutputFormat := by
    rw [gf.2.2.2.1, hf.2.2.2.1]; exact ite_default_idem _ _ _ (by decide)
  have e5 : c.setDefaults.setDefaults.Level = c.setDefaults.Level := by
    rw [gf.2.2.2.2.1, hf.2.2.2.2.1]; exact ite_default_idem _ _ _ (by decide)
  have e6 : c.setDefaults.setDefaults.RotateMaxSizeMB = c.setDefaults.RotateMaxSizeMB := by
    rw [gf.2.2.2.2.2.1, hf.2.2.2.2.2.1]; exact ite_default_idem _ _ _ (by decide)
  have e7 : c.setDefaults.setDefaults.RotateMaxBackups = c.setDefaults.RotateMaxBackups := by
    rw [gf.2.2.2.2.2.2.1, hf.2.2.2.2.2.2.1]; exact ite_default_idem _ _ _ (by decide)
  have e8 : c.setDefaults.setDefaults.RotateMaxAgeDays = c.setDefaults.RotateMaxAgeDays := by
    rw [gf.2.2.2.2.2.2.2.1, hf.2.2.2.2.2.2.2.1]; exact ite_default_idem _ _ _ (by decide)
  have e9 : c.setDefaults.setDefaults.RotateEnabled = c.setDefaults.RotateEnabled := by
    rw [gf.2.2.2.2.2.2.2.2.1, hf.2.2.2.2.2.2.2.2.1]; exact ite_default_idem _ _ _ (by decide)
  have e10 : c.setDefaults.setDefaults.RotateCompress = c.setDefaults.RotateCompress := by
    rw [gf.2.2.2.2.2.2.2.2.2.1, hf.2.2.2.2.2.2.2.2.2.1]
    exact ite_default_idem _ _ _ (by decide)
  have e11 : c.setDefaults.setDefaults.InjectTraceInfo = c.setDefaults.InjectTraceInfo := by
    rw [gf.2.2.2.2.2.2.2.2.2.2.1, hf.2.2.2.2.2.2.2.2.2.2.1]
    exact ite_default_idem _ _ _ (by decide)
  obtain ⟨g12, g13, g14, g15⟩ := gf.2.2.2.2.2.2.2.2.2.2.2
  clear hf gf
  rcases hc : c.setDefaults.setDefaults with
    ⟨a1, a2, a3, a4, a5, a6, a7, a8, a9, a10, a11, a12, a13, a14, a15⟩
  rcases hd : c.setDefaults with
    ⟨b1, b2, b3, b4, b5, b6, b7, b8, b9, b10, b11, b12, b13, b14, b15⟩
  rw [hc, hd] at e1 e2 e3 e4 e5 e6 e7 e8 e9 e10 e11 g12 g13 g14 g15
  simp only at e1 e2 e3 e4 e5 e6 e7 e8 e9 e10 e11 g12 g13 g14 g15
  simp only [Config.mk.injEq]
  exact ⟨e1, e2, e3, e4, g12, g13, g14, e5, e9, e6, e7, e8, e10, e11, g15⟩

/-- C12 (counterexample): an `Output` given as an empty non-nil list is empty, yet
`setDefaults` does not turn it into the list with stdout alone: it stays empty. -/
theorem C12_counterexample_empty_output_kept :
    cfgEmptyOutput.Output.getD [] = []
      ∧ cfgEmptyOutput.setDefaults.Output = some []
      ∧ cfgEmptyOutput.setDefaults.Output ≠ some [OutputStdout] := by
  refine ⟨rfl, rfl, by decide⟩

/-- C12 (amended): `setDefaults` replaces ServiceName, OutputFilePath, OutputFormat, Level
and the three rotation integers by the documented default exactly when the field holds
its zero value, replaces `Output` by the list with stdout alone exactly when it is nil,
leaves the three booleans true when they are true and makes them true when they are
false, and leaves StdoutFormat, StderrFormat, FileFormat and the internal flag as they
are. In particular a non-nil `Output` (empty or not), a negative rotation integer and a
non-empty ServiceName are never overwritten. -/
theorem C12_setDefaults_field_by_field (c : Config) :
    c.setDefaults.ServiceName = (if c.ServiceName = "" then "unnamed-service" else c.ServiceName)
      ∧ c.setDefaults.Output = (if c.Output = none then some [OutputStdout] else c.Output)
      ∧ c.setDefaults.OutputFilePath
          = (if c.OutputFilePath = "" then "./app.log" else c.OutputFilePath)
      ∧ c.setDefaults.OutputFormat
          = (if c.OutputFormat = "" then FormatLogfmtNoColor else c.OutputFormat)
      ∧ c.setDefaults.Level = (if c.Level = "" then LevelDebug else c.Level)
      ∧ c.setDefaults.RotateMaxSizeMB
          = (if c.RotateMaxSizeMB = 0 then 10 else c.RotateMaxSizeMB)
      ∧ c.setDefaults.RotateMaxBackups
          = (if c.RotateMaxBackups = 0 then 3 else c.RotateMaxBackups)
      ∧ c.setDefaults.RotateMaxAgeDays
          = (if c.RotateMaxAgeDays = 0 then 28 else c.RotateMaxAgeDays)
      ∧ c.setDefaults.RotateEnabled = (if c.RotateEnabled = false then true else c.RotateEnabled)
      ∧ c.setDefaults.RotateCompress
          = (if c.RotateCompress = false then true else c.RotateCompress)
      ∧ c.setDefaults.InjectTraceInfo
          = (if c.InjectTraceInfo = false then true else c.InjectTraceInfo)
      ∧ c.setDefaults.StdoutFormat = c.StdoutFormat
      ∧ c.setDefaults.StderrFormat = c.StderrFormat
      ∧ c.setDefaults.FileFormat = c.FileFormat
      ∧ c.setDefaults.parseEnv = c.parseEnv
      ∧ (c.Output = none → c.setDefaults.Output = some [OutputStdout])
      ∧ (∀ xs, c.Output = some xs → c.setDefaults.Output = some xs)
      ∧ (c.RotateMaxSizeMB < 0 → c.setDefaults.RotateMaxSizeMB = c.RotateMaxSizeMB)
      ∧ (c.RotateMaxBackups < 0 → c.setDefaults.RotateMaxBackups = c.RotateMaxBackups)
      ∧ (c.RotateMaxAgeDays < 0 → c.setDefaults.RotateMaxAgeDays = c.RotateMaxAgeDays)
      ∧ (c.ServiceName ≠ "" → c.setDefaults.ServiceName = c.ServiceName) := by
  obtain ⟨h1, h2, h3, h4, h5, h6, h7, h8, h9, h10, h11, h12, h13, h14, h15⟩ :=
    setDefaults_fields c
  refine ⟨h1, h2, h3, h4, h5, h6, h7, h8, h9, h10, h11, h12, h13, h14, h15,
    ?_, ?_, ?_, ?_, ?_, ?_⟩
  · intro h; rw [h2, if_pos h]
  · intro xs h; rw [h2, h]; simp
  · intro h; rw [h6, if_neg (by omega)]
  · intro h; rw [h7, if_neg (by omega)]
  · intro h; rw [h8, if_neg (by omega)]
  · intro h; rw [h1, if_neg h]

/-! ### Fail-fast validation -/

theorem firstError_cons_none (rest : List (Option String)) :
    firstError (none :: rest) = firstError rest := by
  simp [firstError]

theorem firstError_cons_some (e : String) (rest : List (Option String)) :
    firstError (some e :: rest) = .error e := by
  simp [firstError]

/-- One step of the chain of checks in `validate`: a check that fails under `N` and
passes under `Q`, followed by the remaining checks. -/
theorem firstError_step (N Q : Prop) [Decidable N] [Decidable Q] (hnq : N ↔ ¬ Q)
    (m : String) (rest : List (Option String)) (x : Except String Unit)
    (hx : x = firstError rest) :
    (if N then Except.error m else x)
      = firstError ((if Q then none else some m) :: rest) := by
  by_cases hq : Q
  · rw [if_neg (by rw [hnq]; exact not_not.mpr hq), if_pos hq, firstError_cons_none, hx]
  · rw [if_pos (hnq.mpr hq), if_neg hq, firstError_cons_some]

/-- The loop over `Output` followed by further checks is the fail-fast run of the member
checks followed by those checks. -/
theorem validateOutput_then (outs : List String) (rest : List (Option String)) :
    (match validateOutput outs with
      | .error e => Except.error e
      | .ok _ => firstError rest)
      = firstError (outs.map (fun op =>
          if op ∈ [OutputStdout, OutputStderr, OutputFile] then none
          else some ("invalid output: " ++ op ++ ", valid values: stdout, stderr, file"))
        ++ rest) := by
  induction outs with
  | nil => rfl
  | cons o rest1 ih =>
    by_cases ho : o = OutputStdout ∨ o = OutputStderr ∨ o = OutputFile
    · have hm : o ∈ [OutputStdout, OutputStderr, OutputFile] := by simpa using ho
      simp only [validateOutput, ho, if_true, List.map_cons, hm, List.cons_append,
        firstError_cons_none]
      exact ih
    · have hm : o ∉ [OutputStdout, OutputStderr, OutputFile] := by simpa using ho
      simp only [validateOutput, ho, if_false, List.map_cons, hm, List.cons_append,
        firstError_cons_some]

/-- `validate` is the fail-fast run of the checks of the specification. -/
theorem validate_eq_validateSpec (c : Config) : c.validate = validateSpec c := by
  unfold validateSpec validateChecks
  rw [← validateOutput_then]
  unfold Config.validate
  congr 1
  funext _
  refine firstError_step _ _ (by simp) _ _ _ ?_
  refine firstError_step _ _ (by simp) _ _ _ ?_
  refine firstError_step _ _ (by simp) _ _ _ ?_
  refine firstError_step _ _ (by simp) _ _ _ ?_
  refine firstError_step _ _ (by simp) _ _ _ ?_
  refine firstError_step _ _ (by simp) _ _ _ ?_
  refine firstError_step _ _ (by simp) _ _ _ ?_
  refine firstError_step _ _ (by simp) _ _ _ ?_
  rfl

/-- C13: `validate` is fail-fast in the fixed order Output members (in list order),
OutputFormat, StdoutFormat, StderrFormat, FileFormat, Level, RotateMaxSizeMB,
RotateMaxBackups, RotateMaxAgeDays: it returns the error of the first failing check, whose
message names the field, its invalid value and the valid values, and it returns no error
exactly when no check fails. A configuration with an invalid output format and an invalid
level gets the error of the output format. -/
theorem C13_validate_fail_fast (c : Config) :
    c.validate = validateSpec c
      ∧ (c.validate = .ok () ↔ ∀ r ∈ validateChecks c, r = none)
      ∧ (∀ e, c.validate = .error e ↔
          ∃ pre post, validateChecks c = pre ++ some e :: post ∧ ∀ r ∈ pre, r = none)
      ∧ cfgTwoInvalid.validate
          = .error "invalid output format: xml, valid values: logfmt, logfmt_no_color, json" := by
  have href : c.validate = validateSpec c := validate_eq_validateSpec c
  refine ⟨href, ?_, ?_, rfl⟩
  · rw [href, validateSpec, firstError]
    cases hfs : (validateChecks c).findSome? id with
    | some e =>
      simp only [false_iff, not_forall, reduceCtorEq]
      obtain ⟨r, hr, hre⟩ := List.exists_of_findSome?_eq_some hfs
      exact ⟨r, hr, by simp only [id] at hre; simp [hre]⟩
    | none =>
      simp only [true_iff]
      intro r hr
      have := List.findSome?_eq_none_iff.mp hfs r hr
      simpa using this
  · intro e
    rw [href, validateSpec, firstError]
    cases hfs : (validateChecks c).findSome? id with
    | some e1 =>
      simp only [Except.error.injEq]
      constructor
      · intro he
        subst he
        obtain ⟨pre, r, post, hl, hr, hpre⟩ := List.findSome?_eq_some_iff.mp hfs
        simp only [id] at hr
        subst hr
        exact ⟨pre, post, hl, fun x hx => by simpa using hpre x hx⟩
      · rintro ⟨pre, post, hl, hpre⟩
        have : (validateChecks c).findSome? id = some e := by
          rw [hl, List.findSome?_append]
          have hn : pre.findSome? id = none :=
            List.findSome?_eq_none_iff.mpr (fun x hx => by simp [hpre x hx])
          simp [hn]
        rw [hfs] at this
        exact Option.some.inj this
    | none =>
      simp only [reduceCtorEq, false_iff, not_exists, not_and]
      intro pre post hl
      have := List.findSome?_eq_none_iff.mp hfs (some e) (by rw [hl]; simp)
      simp at this

/-! ### Ownership of the file -/

/-- C14: for every Logger l, with or without a file, and every name n, `l.Sub(n)` has
the engine and the configuration of l and holds no file; `Close` on it closes no handle
and returns no error, so the handle of l stays open. `Close` on a Logger that holds a
file closes exactly that handle and returns its close result; the Logger `New` returns
for a file output holds the handle and its `Sub` descendant does not. -/
theorem C14_sub_never_closes_file (rt : Runtime) (h : Heap) (l : Logger) (n : String)
    (closeResult : File → Except String Unit) :
    (Sub rt h l n).2.zlog = l.zlog
      ∧ (Sub rt h l n).2.cfg = l.cfg
      ∧ (Sub rt h l n).2.file = none
      ∧ Close closeResult (Sub rt h l n).2 = ([], .ok ())
      ∧ (∀ m, Close closeResult (Sub rt (Sub rt h l n).1 (Sub rt h l n).2 m).2 = ([], .ok ()))
      ∧ Close closeResult l
          = (l.file.toList, match l.file with
                            | some f => closeResult f
                            | none => .ok ())
      ∧ (∀ f, l.file = some f → Close closeResult l = ([f], closeResult f))
      ∧ New goRuntime [] cfgFileOnly = .ok ([["unnamed-service"]], rootWithFile)
      ∧ Close closeFails rootWithFile
          = ([.lumberjack 0 "./app.log" 10 3 28 true], .error "close failed")
      ∧ Close closeFails (Sub goRuntime [["unnamed-service"]] rootWithFile "db").2
          = ([], .ok ()) := by
  refine ⟨rfl, rfl, rfl, rfl, fun _ => rfl, ?_, ?_, rfl, rfl, rfl⟩
  · cases hf : l.file <;> simp [Close, hf]
  · intro f hf
    simp [Close, hf]

/-! ### The sinks handed to the fan-out writer -/

/-- C15 (the code at the failing input): for `Output` = stdout, syslog the configuration
is rejected by `validate` after defaulting, but `New` returns a Logger, and the list
handed to `io.MultiWriter` has a nil writer at the place of the unknown target. -/
theorem C15_unknown_target_gives_nil_writer :
    cfgUnknownOutput.setDefaults.validate
        = .error "invalid output: syslog, valid values: stdout, stderr, file"
      ∧ ∃ h1 lg zl, New goRuntime [] cfgUnknownOutput = .ok (h1, lg)
          ∧ lg.zlog = some zl
          ∧ zl.writers = [some (.console .stdout true RFC3339), none]
          ∧ (initWriters goRuntime lg).2
              = .ok [some (.console .stdout true RFC3339), none] := by
  refine ⟨rfl, _, _, _, rfl, rfl, rfl, rfl⟩

/-- C16 (the code at the failing input): for `Output` = file, file `New` runs `initFile`
once per entry. The two sinks of the fan-out write to two different rotation sinks on
the same path; the Logger holds the second one only, and `Close` closes the second one
only, so the first is never closed. -/
theorem C16_file_sink_built_per_entry :
    ∃ h1 lg zl, New goRuntime [] cfgFileTwice = .ok (h1, lg)
      ∧ lg.zlog = some zl
      ∧ zl.writers = [some (.console (.file (.lumberjack 0 "./app.log" 10 3 28 true)) true RFC3339),
                      some (.console (.file (.lumberjack 1 "./app.log" 10 3 28 true)) true RFC3339)]
      ∧ lg.file = some (.lumberjack 1 "./app.log" 10 3 28 true)
      ∧ Close closeOk lg = ([.lumberjack 1 "./app.log" 10 3 28 true], .ok ())
      ∧ File.lumberjack 0 "./app.log" 10 3 28 true ∉ (Close closeOk lg).1 := by
  refine ⟨_, _, _, rfl, rfl, rfl, rfl, rfl, by decide⟩

/-! ### Every Logger `New` returns -/

/-- What `New` computes, for every configuration: the environment step, then defaulting,
the service name appended to the nil slice, and the writers of the defaulted
configuration. -/
theorem New_eq (rt : Runtime) (h : Heap) (c : Config) :
    New rt h c =
      match configAfterEnv rt c with
      | .error e => .error e
      | .ok c1 =>
        match initWritersLoop rt c1.setDefaults (c1.setDefaults.Output.getD []) 0 none [] with
        | (_, .error e) => .error ("initZerolog: " ++ ("initWriters: " ++ e))
        | (f, .ok ws) =>
          .ok ((goAppend rt h Slice.nil c1.setDefaults.ServiceName).1,
            { zlog := some { writers := ws, level := getZerologLevel c1.setDefaults.Level,
                             timestamp := true, callerSkipFrameCount := 4 },
              serviceNames := (goAppend rt h Slice.nil c1.setDefaults.ServiceName).2,
              cfg := c1.setDefaults, file := f }) := by
  have body : ∀ c1 : Config,
      (let cfg2 := c1.setDefaults
       match vldStruct cfg2 with
       | .error e => Except.error ("vld.Struct: " ++ e)
       | .ok _ =>
         let lg : Logger :=
           { zlog := none, serviceNames := Slice.nil, cfg := cfg2, file := none }
         let hs := if cfg2.ServiceName ≠ "" then goAppend rt h lg.serviceNames cfg2.ServiceName
                   else (h, lg.serviceNames)
         match initZerolog rt { lg with serviceNames := hs.2 } with
         | (_, .error e) => Except.error ("initZerolog: " ++ e)
         | (lg1, .ok zlog) => Except.ok (hs.1, { lg1 with zlog := some zlog }))
      = (match initWritersLoop rt c1.setDefaults (c1.setDefaults.Output.getD []) 0 none []
          with
        | (_, .error e) => Except.error ("initZerolog: " ++ ("initWriters: " ++ e))
        | (f, .ok ws) =>
          Except.ok ((goAppend rt h Slice.nil c1.setDefaults.ServiceName).1,
            { zlog := some { writers := ws, level := getZerologLevel c1.setDefaults.Level,
                             timestamp := true, callerSkipFrameCount := 4 },
              serviceNames := (goAppend rt h Slice.nil c1.setDefaults.ServiceName).2,
              cfg := c1.setDefaults, file := f })) := by
    intro c1
    have hne := setDefaults_ServiceName_ne c1
    simp only [vldStruct, initZerolog, initWriters, hne]
    rcases hr : initWritersLoop rt c1.setDefaults (c1.setDefaults.Output.getD []) 0 none []
      with ⟨f, r⟩
    cases r <;> simp [hr, hne]
  unfold New
  change (match configAfterEnv rt c with
    | .error e => Except.error e
    | .ok cfg1 => _) = _
  cases hc : configAfterEnv rt c with
  | error e => rfl
  | ok c1 => exact body c1

theorem cmpOr_ne_empty (a b : String) (hb : b ≠ "") : cmpOr "" [a, b] ≠ "" := by
  rw [cmpOr_pair]
  by_cases ha : a = "" <;> simp [ha, hb]

theorem setDefaults_OutputFormat_ne (c : Config) : c.setDefaults.OutputFormat ≠ "" := by
  rw [(setDefaults_fields c).2.2.2.1]
  by_cases hs : c.OutputFormat = ""
  · rw [if_pos hs]; decide
  · rw [if_neg hs]; exact hs

theorem setDefaults_bools (c : Config) :
    c.setDefaults.RotateEnabled = true ∧ c.setDefaults.RotateCompress = true
      ∧ c.setDefaults.InjectTraceInfo = true :=
  ⟨cmpOr_bool_true _, cmpOr_bool_true _, cmpOr_bool_true _⟩

/-- With rotation on, `initFile` builds the rotation sink whatever the runtime. -/
theorem initFile_of_rotate (rt : Runtime) (cfg : Config) (n : Nat)
    (hrot : cfg.RotateEnabled = true) :
    initFile rt cfg n = .ok (.lumberjack n cfg.OutputFilePath cfg.RotateMaxSizeMB
      cfg.RotateMaxBackups cfg.RotateMaxAgeDays cfg.RotateCompress) := by
  simp [initFile, hrot]

/-- With rotation on and a non-empty `OutputFormat`, the loop of `initWriters` takes none
of its error branches: it returns writers, and the file it leaves in the Logger is the
one it started with or a rotation sink. -/
theorem initWritersLoop_total (rt : Runtime) (cfg : Config)
    (hrot : cfg.RotateEnabled = true) (hfmt : cfg.OutputFormat ≠ "") :
    ∀ (outs : List String) (n : Nat) (file : Option File) (ws0 : List (Option Writer)),
      ∃ f ws, initWritersLoop rt cfg outs n file ws0 = (f, .ok ws)
        ∧ (f = file ∨ ∃ k, f = some (.lumberjack k cfg.OutputFilePath cfg.RotateMaxSizeMB
            cfg.RotateMaxBackups cfg.RotateMaxAgeDays cfg.RotateCompress)) := by
  intro outs
  induction outs with
  | nil => intro n file ws0; exact ⟨file, ws0, rfl, Or.inl rfl⟩
  | cons o rest ih =>
    intro n file ws0
    rw [initWritersLoop]
    by_cases h1 : o = "stdout"
    · rw [if_pos h1]
      simp only [cmpOr_ne_empty _ _ hfmt, if_false]
      exact ih _ _ _
    · rw [if_neg h1]
      by_cases h2 : o = "stderr"
      · rw [if_pos h2]
        simp only [cmpOr_ne_empty _ _ hfmt, if_false]
        exact ih _ _ _
      · rw [if_neg h2]
        by_cases h3 : o = "file"
        · rw [if_pos h3]
          simp only [cmpOr_ne_empty _ _ hfmt, if_false, initFile_of_rotate rt cfg n hrot]
          obtain ⟨f, ws, hrun, hf⟩ := ih (n + 1)
            (some (.lumberjack n cfg.OutputFilePath cfg.RotateMaxSizeMB
              cfg.RotateMaxBackups cfg.RotateMaxAgeDays cfg.RotateCompress)) _
          refine ⟨f, ws, hrun, Or.inr ?_⟩
          rcases hf with hf | hf
          · exact ⟨n, hf⟩
          · exact hf
        · rw [if_neg h3]
          exact ih _ _ _

/-- With rotation on, the loop of `initWriters` does not depend on `os.OpenFile`. -/
theorem initWritersLoop_openFile_irrelevant (rt : Runtime) (cfg : Config)
    (hrot : cfg.RotateEnabled = true) (o : Nat → String → Except String Unit) :
    ∀ (outs : List String) (n : Nat) (file : Option File) (ws0 : List (Option Writer)),
      initWritersLoop { rt with openFile := o } cfg outs n file ws0
        = initWritersLoop rt cfg outs n file ws0 := by
  intro outs
  induction outs with
  | nil => intro n file ws0; rfl
  | cons op rest ih =>
    intro n file ws0
    rw [initWritersLoop, initWritersLoop]
    simp only [initFile_of_rotate _ cfg n hrot, ih]

/-- Every Logger `New` returns: its configuration is a defaulted one, its segment slice
holds the service name alone, its engine is assembled from the writers of that
configuration, and its file is none or a rotation sink. -/
theorem New_ok_inv (rt : Runtime) (h h1 : Heap) (c : Config) (lg : Logger)
    (hnew : New rt h c = .ok (h1, lg)) :
    ∃ c1 ws, configAfterEnv rt c = .ok c1 ∧ lg.cfg = c1.setDefaults
      ∧ lg.serviceNames.WF h1 ∧ servicePath h1 lg = [lg.cfg.ServiceName]
      ∧ lg.zlog = some { writers := ws, level := getZerologLevel lg.cfg.Level,
                         timestamp := true, callerSkipFrameCount := 4 }
      ∧ initWritersLoop rt lg.cfg (lg.cfg.Output.getD []) 0 none [] = (lg.file, .ok ws)
      ∧ (lg.file = none ∨ ∃ k, lg.file = some (.lumberjack k lg.cfg.OutputFilePath
          lg.cfg.RotateMaxSizeMB lg.cfg.RotateMaxBackups lg.cfg.RotateMaxAgeDays
          lg.cfg.RotateCompress)) := by
  rw [New_eq] at hnew
  cases hc : configAfterEnv rt c with
  | error e => rw [hc] at hnew; simp at hnew
  | ok c1 =>
    rw [hc] at hnew
    simp only at hnew
    obtain ⟨f, ws, hrun, hf⟩ := initWritersLoop_total rt c1.setDefaults
      (setDefaults_bools c1).1 (setDefaults_OutputFormat_ne c1)
      (c1.setDefaults.Output.getD []) 0 none []
    rw [hrun] at hnew
    simp only [Except.ok.injEq, Prod.mk.injEq] at hnew
    obtain ⟨h1eq, lgeq⟩ := hnew
    subst h1eq
    subst lgeq
    refine ⟨c1, ws, rfl, rfl, WF_goAppend rt h Slice.nil _ (WF_nil h), ?_, rfl, hrun, hf⟩
    have := read_goAppend rt h Slice.nil c1.setDefaults.ServiceName (WF_nil h)
    simpa [servicePath, Slice.read, Slice.nil] using this

theorem New_openFile_irrelevant (rt : Runtime) (h : Heap) (c : Config)
    (o : Nat → String → Except String Unit) :
    New { rt with openFile := o } h c = New rt h c := by
  rw [New_eq, New_eq]
  have hcfg : configAfterEnv { rt with openFile := o } c = configAfterEnv rt c := rfl
  rw [hcfg]
  cases hc : configAfterEnv rt c with
  | error e => rfl
  | ok c1 =>
    simp only
    rw [initWritersLoop_openFile_irrelevant rt c1.setDefaults (setDefaults_bools c1).1 o]
    rfl

/-- C17: whatever the three booleans of a configuration are, after `setDefaults`
RotateEnabled, RotateCompress and InjectTraceInfo are true. Hence every Logger `New`
returns has them true; `initFile` on its configuration builds the rotation sink, the
file it holds is none or a rotation sink, and `New` gives the same result whatever
`os.OpenFile` would do (the open-for-append branch is never run); and every logging call
on it runs the trace enricher. -/
theorem C17_booleans_forced_true (rt : Runtime) (h h1 : Heap) (c : Config) (lg : Logger)
    (hnew : New rt h c = .ok (h1, lg)) :
    (∀ d : Config, d.setDefaults.RotateEnabled = true ∧ d.setDefaults.RotateCompress = true
        ∧ d.setDefaults.InjectTraceInfo = true)
      ∧ lg.cfg.RotateEnabled = true ∧ lg.cfg.RotateCompress = true
      ∧ lg.cfg.InjectTraceInfo = true
      ∧ (∀ n, initFile rt lg.cfg n = .ok (.lumberjack n lg.cfg.OutputFilePath
          lg.cfg.RotateMaxSizeMB lg.cfg.RotateMaxBackups lg.cfg.RotateMaxAgeDays true))
      ∧ (lg.file = none ∨ ∃ k, lg.file = some (.lumberjack k lg.cfg.OutputFilePath
          lg.cfg.RotateMaxSizeMB lg.cfg.RotateMaxBackups lg.cfg.RotateMaxAgeDays true))
      ∧ (∀ o, New { rt with openFile := o } h c = .ok (h1, lg))
      ∧ (∀ (h2 : Heap) (ctx : SpanContext) (e : Event) (msg : String) (fields : List Value),
          (log h2 lg ctx e msg fields).ops
            = (addTraceAndSpanID ctx
                (if lg.serviceNames.len ≠ 0 then
                  { e with ops := e.ops
                      ++ [.Str "service" (String.intercalate "/" (lg.serviceNames.read h2))] }
                 else e)).ops ++ [.Fields fields, .Msg msg])
      ∧ (∀ (lvl : ZerologLevel) (h2 : Heap) (ctx : SpanContext) (msg : String)
            (fields : List Value),
          (logAt lvl h2 lg ctx msg fields).strFields "span_id" = ctx.spanID.toList
            ∧ (logAt lvl h2 lg ctx msg fields).strFields "trace_id" = ctx.traceID.toList) := by
  obtain ⟨c1, ws, _, hcfg, _, _, _, _, hfile⟩ := New_ok_inv rt h h1 c lg hnew
  obtain ⟨b1, b2, b3⟩ := setDefaults_bools c1
  rw [← hcfg] at b1 b2 b3
  rw [b2] at hfile
  refine ⟨setDefaults_bools, b1, b2, b3, ?_, hfile, ?_, ?_, ?_⟩
  · intro n
    rw [initFile_of_rotate rt lg.cfg n b1, b2]
  · intro o
    rw [New_openFile_irrelevant, hnew]
  · intro h2 ctx e msg fields
    simp only [log, b3, if_true]
  · intro lvl h2 ctx msg fields
    rcases ctx with ⟨sp, tr⟩
    by_cases hl : lg.serviceNames.len = 0 <;> cases sp <;> cases tr <;>
      simp [logAt, log, addTraceAndSpanID, Event.strFields, hl, b3]

/-- C17 (witness): the Logger `New` returns for `DefaultConfig`, whose three booleans
are all false. -/
theorem C17_booleans_forced_true_witness :
    New goRuntime [] DefaultConfig = .ok ([["unnamed-service"]], lgDefault)
      ∧ DefaultConfig.RotateEnabled = false
      ∧ lgDefault.cfg.RotateEnabled = true ∧ lgDefault.cfg.RotateCompress = true
      ∧ lgDefault.cfg.InjectTraceInfo = true :=
  ⟨rfl, rfl,
    (C17_booleans_forced_true goRuntime [] [["unnamed-service"]] DefaultConfig lgDefault
      rfl).2.1,
    (C17_booleans_forced_true goRuntime [] [["unnamed-service"]] DefaultConfig lgDefault
      rfl).2.2.1,
    (C17_booleans_forced_true goRuntime [] [["unnamed-service"]] DefaultConfig lgDefault
      rfl).2.2.2.1⟩

/-- C18: after `setDefaults` OutputFormat is not empty, so the format resolved for
stdout, for stderr and for file is not empty; `initWriters` on a Logger with a defaulted
configuration returns writers, so it returns none of the three "... and output format
is empty" errors; and `New` fails only when the environment binder does. -/
theorem C18_output_format_never_empty (c : Config) :
    c.setDefaults.OutputFormat ≠ ""
      ∧ cmpOr "" [c.setDefaults.StdoutFormat, c.setDefaults.OutputFormat] ≠ ""
      ∧ cmpOr "" [c.setDefaults.StderrFormat, c.setDefaults.OutputFormat] ≠ ""
      ∧ cmpOr "" [c.setDefaults.FileFormat, c.setDefaults.OutputFormat] ≠ ""
      ∧ (∀ (rt : Runtime) (l : Logger), l.cfg = c.setDefaults →
          (∃ ws, (initWriters rt l).2 = .ok ws)
            ∧ (initWriters rt l).2 ≠ .error "stdout and output format is empty"
            ∧ (initWriters rt l).2 ≠ .error "stderr and output format is empty"
            ∧ (initWriters rt l).2 ≠ .error "file and output format is empty")
      ∧ (∀ (rt : Runtime) (h : Heap) (e : String), New rt h c = .error e →
          c.parseEnv = true
            ∧ ∃ e1, rt.envParse c = .error e1 ∧ e = "parseEnv: " ++ ("env.Parse: " ++ e1)) := by
  have hfmt := setDefaults_OutputFormat_ne c
  refine ⟨hfmt, cmpOr_ne_empty _ _ hfmt, cmpOr_ne_empty _ _ hfmt, cmpOr_ne_empty _ _ hfmt,
    ?_, ?_⟩
  · intro rt l hl
    obtain ⟨f, ws, hrun, _⟩ := initWritersLoop_total rt c.setDefaults
      (setDefaults_bools c).1 hfmt (c.setDefaults.Output.getD []) 0 l.file []
    have hok : (initWriters rt l).2 = .ok ws := by
      simp only [initWriters, hl, hrun]
    refine ⟨⟨ws, hok⟩, ?_, ?_, ?_⟩ <;> rw [hok] <;> simp
  · intro rt h e hnew
    rw [New_eq] at hnew
    cases hc : configAfterEnv rt c with
    | error e0 =>
      rw [hc] at hnew
      simp only [Except.error.injEq] at hnew
      subst hnew
      unfold configAfterEnv parseEnv at hc
      by_cases hp : c.parseEnv = true
      · refine ⟨hp, ?_⟩
        rw [if_pos hp] at hc
        cases he : rt.envParse c with
        | error e1 =>
          rw [he] at hc
          simp only [Except.error.injEq] at hc
          exact ⟨e1, rfl, hc.symm⟩
        | ok c1 => rw [he] at hc; simp at hc
      · rw [if_neg hp] at hc
        simp at hc
    | ok c1 =>
      rw [hc] at hnew
      obtain ⟨f, ws, hrun, _⟩ := initWritersLoop_total rt c1.setDefaults
        (setDefaults_bools c1).1 (setDefaults_OutputFormat_ne c1)
        (c1.setDefaults.Output.getD []) 0 none []
      simp only [hrun] at hnew
      simp at hnew

/-! ### Empty names and the shape of the service field -/

theorem intercalate_go_data (sep : String) :
    ∀ (as : List String) (acc : String),
      (String.intercalate.go acc sep as).data
        = acc.data ++ (as.map (fun a => sep.data ++ a.data)).flatten := by
  intro as
  induction as with
  | nil => intro acc; simp [String.intercalate.go]
  | cons a rest ih =>
    intro acc
    rw [String.intercalate.go, ih]
    simp [List.append_assoc]

theorem list_intercalate_cons (sep a : List Char) (rest : List (List Char)) :
    sep.intercalate (a :: rest) = a ++ (rest.map (fun b => sep ++ b)).flatten := by
  induction rest generalizing a with
  | nil => simp [List.intercalate]
  | cons b rest ih =>
    have := ih b
    simp only [List.intercalate] at this ⊢
    simp [List.intersperse, this]

/-- The characters of `strings.Join(segs, sep)`: the characters of the segments with the
characters of the separator between them. -/
theorem intercalate_data (sep : String) (segs : List String) :
    (String.intercalate sep segs).data = sep.data.intercalate (segs.map String.data) := by
  cases segs with
  | nil => simp [String.intercalate, List.intercalate]
  | cons a rest =>
    rw [String.intercalate, intercalate_go_data, List.map_cons, list_intercalate_cons]
    simp [List.map_map, Function.comp_def]

theorem mem_take_set (x : String) :
    ∀ (l : List String) (n m : Nat) (y : String),
      y ∈ (l.set n x).take m → y ∈ l.take m ∨ y = x := by
  intro l
  induction l with
  | nil => intro n m y hy; simp at hy
  | cons a t ih =>
    intro n m y hy
    cases m with
    | zero => simp at hy
    | succ m =>
      cases n with
      | zero =>
        simp only [List.set_cons_zero, List.take_succ_cons, List.mem_cons] at hy ⊢
        rcases hy with hy | hy
        · exact Or.inr hy
        · exact Or.inl (Or.inr hy)
      | succ n =>
        simp only [List.set_cons_succ, List.take_succ_cons, List.mem_cons] at hy ⊢
        rcases hy with hy | hy
        · exact Or.inl (Or.inl hy)
        · rcases ih n m y hy with h | h
          · exact Or.inl (Or.inr h)
          · exact Or.inr h

theorem backing_set_other (h : Heap) (a b : Nat) (v : List String) (hab : b ≠ a) :
    backing (h.set a v) b = backing h b := by
  simp [backing, List.getD, List.getElem?_set, Ne.symm hab]

/-- An `append` of a good name anywhere leaves every good segment sequence good: the
only cell of it that may change is overwritten with the good name. -/
theorem Good_goAppend_frame (rt : Runtime) (h : Heap) (s t : Slice) (x : String)
    (hs : s.Good h) (hx : x ≠ "" ∧ '/' ∉ x.data) : s.Good (goAppend rt h t x).1 := by
  obtain ⟨⟨hlc, hcap⟩, hpos, hall⟩ := hs
  unfold goAppend
  by_cases hc : t.len < t.cap
  · simp only [hc, if_true]
    by_cases ha : t.arr < h.length
    · by_cases hst : s.arr = t.arr
      · have hb : backing (h.set t.arr ((backing h t.arr).set t.len x)) s.arr
            = (backing h s.arr).set t.len x := by
          rw [hst]; exact backing_set_self h t.arr _ ha
        refine ⟨⟨hlc, by rw [hb, List.length_set]; exact hcap⟩, hpos, ?_⟩
        intro y hy
        unfold Slice.read at hy
        rw [hb] at hy
        rcases mem_take_set x _ _ _ y hy with h1 | h1
        · exact hall y h1
        · rw [h1]; exact hx
      · have hb : backing (h.set t.arr ((backing h t.arr).set t.len x)) s.arr
            = backing h s.arr := backing_set_other h t.arr s.arr _ hst
        refine ⟨⟨hlc, by rw [hb]; exact hcap⟩, hpos, ?_⟩
        intro y hy
        unfold Slice.read at hy
        rw [hb] at hy
        exact hall y hy
    · rw [List.set_eq_of_length_le (not_lt.mp ha)]
      exact ⟨⟨hlc, hcap⟩, hpos, hall⟩
  · simp only [hc, if_false]
    have ha : s.arr < h.length := backing_length_pos h s.arr (by omega)
    have hb : ∀ v, backing (h ++ [v]) s.arr = backing h s.arr :=
      fun v => backing_append_old h v s.arr ha
    refine ⟨⟨hlc, by rw [hb]; exact hcap⟩, hpos, ?_⟩
    intro y hy
    unfold Slice.read at hy
    rw [hb] at hy
    exact hall y hy

/-- The slice `append` returns for a good name is good when the segments it extends
are. -/
theorem Good_goAppend_new (rt : Runtime) (h : Heap) (t : Slice) (x : String)
    (hwf : t.WF h) (hall : ∀ y ∈ t.read h, y ≠ "" ∧ '/' ∉ y.data)
    (hx : x ≠ "" ∧ '/' ∉ x.data) :
    (goAppend rt h t x).2.Good (goAppend rt h t x).1 := by
  refine ⟨WF_goAppend rt h t x hwf, by rw [len_goAppend]; omega, ?_⟩
  intro y hy
  rw [read_goAppend rt h t x hwf] at hy
  rcases List.mem_append.mp hy with h1 | h1
  · exact hall y h1
  · rw [List.mem_singleton.mp h1]; exact hx

/-- The heap and the segment slice of the Logger `New` returns. -/
theorem New_ok_heap (rt : Runtime) (h h1 : Heap) (c : Config) (lg : Logger)
    (hnew : New rt h c = .ok (h1, lg)) :
    lg.cfg.ServiceName ≠ ""
      ∧ h1 = (goAppend rt h Slice.nil lg.cfg.ServiceName).1
      ∧ lg.serviceNames = (goAppend rt h Slice.nil lg.cfg.ServiceName).2 := by
  rw [New_eq] at hnew
  cases hc : configAfterEnv rt c with
  | error e => rw [hc] at hnew; simp at hnew
  | ok c1 =>
    rw [hc] at hnew
    simp only at hnew
    rcases hr : initWritersLoop rt c1.setDefaults (c1.setDefaults.Output.getD []) 0 none []
      with ⟨f, r⟩
    rw [hr] at hnew
    cases r with
    | error e => simp at hnew
    | ok ws =>
      simp only [Except.ok.injEq, Prod.mk.injEq] at hnew
      obtain ⟨h1eq, lgeq⟩ := hnew
      subst h1eq
      subst lgeq
      exact ⟨setDefaults_ServiceName_ne c1, rfl, rfl⟩

/-- Every Logger of a reachable state has a good segment sequence. -/
theorem Reachable_good (rt : Runtime) (h : Heap) (ls : List Logger)
    (hreach : Reachable rt h ls) : ∀ l ∈ ls, l.serviceNames.Good h := by
  induction hreach with
  | start h => intro l hl; simp at hl
  | new h ls c h1 lg _ hnew hslash ih =>
    obtain ⟨hne, hh1, hsn⟩ := New_ok_heap rt h h1 c lg hnew
    intro l hl
    rcases List.mem_cons.mp hl with hl | hl
    · rw [hl, hh1, hsn]
      exact Good_goAppend_new rt h Slice.nil _ (WF_nil h)
        (by intro y hy; simp [Slice.read, Slice.nil] at hy) ⟨hne, hslash⟩
    · rw [hh1]
      exact Good_goAppend_frame rt h _ _ _ (ih l hl) ⟨hne, hslash⟩
  | sub h ls l0 name _ hmem hslash ih =>
    intro l hl
    by_cases hn : name = ""
    · have hsub : Sub rt h l0 name
          = (h, { zlog := l0.zlog, serviceNames := l0.serviceNames, cfg := l0.cfg,
                  file := none }) := by
        simp [Sub, hn]
      rw [hsub] at hl ⊢
      rcases List.mem_cons.mp hl with hl | hl
      · rw [hl]; exact ih l0 hmem
      · exact ih l hl
    · rw [Sub_of_ne rt h l0 name hn] at hl ⊢
      rcases List.mem_cons.mp hl with hl | hl
      · rw [hl]
        obtain ⟨hwf, _, hall⟩ := ih l0 hmem
        exact Good_goAppend_new rt h _ _ hwf hall ⟨hn, hslash⟩
      · exact Good_goAppend_frame rt h _ _ _ (ih l hl) ⟨hn, hslash⟩

/-- C19: for every Logger l, `l.Sub("")` leaves the heap as it is and returns a Logger
with the segment slice of l, so its service path and its service field are those of l.
For every Logger reached from `New` by `Sub` calls whose names contain no "/", the path is
not empty and has no empty segment, the service field is the path joined with "/", and
splitting that field at "/" gives back the segments, none of them empty: the field has
no leading, trailing or doubled "/". -/
theorem C19_sub_empty_name_adds_no_segment (rt : Runtime) (h : Heap) (l : Logger) :
    Sub rt h l ""
        = (h, { zlog := l.zlog, serviceNames := l.serviceNames, cfg := l.cfg, file := none })
      ∧ servicePath (Sub rt h l "").1 (Sub rt h l "").2 = servicePath h l
      ∧ (∀ (lvl : ZerologLevel) (ctx : SpanContext) (msg : String) (fields : List Value),
          (logAt lvl (Sub rt h l "").1 (Sub rt h l "").2 ctx msg fields).strFields "service"
            = (logAt lvl h l ctx msg fields).strFields "service")
      ∧ (∀ (hr : Heap) (ls : List Logger), Reachable rt hr ls → ∀ m ∈ ls,
          servicePath hr m ≠ []
            ∧ (∀ x ∈ servicePath hr m, x ≠ "")
            ∧ (∀ (lvl : ZerologLevel) (ctx : SpanContext) (msg : String)
                  (fields : List Value),
                (logAt lvl hr m ctx msg fields).strFields "service"
                  = [String.intercalate "/" (servicePath hr m)])
            ∧ (String.intercalate "/" (servicePath hr m)).data.splitOn '/'
                = (servicePath hr m).map String.data
            ∧ (∀ piece ∈ (String.intercalate "/" (servicePath hr m)).data.splitOn '/',
                piece ≠ []))
      ∧ servicePath
          (Sub goRuntime (Sub goRuntime (Sub goRuntime heapSvc rootSvc "").1
            (Sub goRuntime heapSvc rootSvc "").2 "a").1
            (Sub goRuntime (Sub goRuntime heapSvc rootSvc "").1
              (Sub goRuntime heapSvc rootSvc "").2 "a").2 "").1
          (Sub goRuntime (Sub goRuntime (Sub goRuntime heapSvc rootSvc "").1
            (Sub goRuntime heapSvc rootSvc "").2 "a").1
            (Sub goRuntime (Sub goRuntime heapSvc rootSvc "").1
              (Sub goRuntime heapSvc rootSvc "").2 "a").2 "").2
          = ["svc", "a"] := by
  have hsub : Sub rt h l ""
      = (h, { zlog := l.zlog, serviceNames := l.serviceNames, cfg := l.cfg, file := none }) := by
    simp [Sub]
  refine ⟨hsub, by rw [hsub]; rfl, ?_, ?_, rfl⟩
  · intro lvl ctx msg fields
    rw [strFields_service_logAt, strFields_service_logAt, hsub]
    rfl
  · intro hr ls hreach m hm
    obtain ⟨hwf, hpos, hall⟩ := Reachable_good rt hr ls hreach m hm
    have hlen : (servicePath hr m).length = m.serviceNames.len := read_length hr _ hwf
    have hne : servicePath hr m ≠ [] := by
      intro h0
      rw [h0] at hlen
      simp at hlen
      omega
    have hsplit : (String.intercalate "/" (servicePath hr m)).data.splitOn '/'
        = (servicePath hr m).map String.data := by
      rw [intercalate_data]
      have hsep : "/".data = ['/'] := rfl
      rw [hsep]
      exact List.splitOn_intercalate _ '/'
        (by
          intro cs hcs
          obtain ⟨x, hx, rfl⟩ := List.mem_map.mp hcs
          exact (hall x hx).2)
        (by simpa using hne)
    refine ⟨hne, fun x hx => (hall x hx).1, ?_, hsplit, ?_⟩
    · intro lvl ctx msg fields
      rw [strFields_service_logAt, if_pos (by omega)]
    · intro piece hp
      rw [hsplit] at hp
      obtain ⟨x, hx, rfl⟩ := List.mem_map.mp hp
      intro h0
      exact (hall x hx).1 (String.ext h0)

end logger
